import Mathlib

/-!
Microphone pump and pull audio input stream.

A shallow embedding of `source/core/audio/microphone_pump_base.cpp` and of
`source/core/audio/pull_audio_input_stream.cpp`, and the properties of the
start/stop lifecycle of the pump, of its buffer hand-off and of the format and
callback handling of the pull stream.

Conventions of the embedding:

* an object is the record of its member variables, and a member function is a
  function from the record (and its arguments) to an `Outcome`: the value
  returned or the error thrown, the record afterwards, and the calls made to
  the outside (device layer, sink, condition variable), in order;
* a null pointer is `none`; a sink and a device handle are identified by a
  number;
* what the outside answers (the result of a device call, the events the
  capture thread delivers while the control thread waits) is an explicit
  argument.
-/

namespace Speech.Impl

/-! ## Types declared outside the two source files -/

/-- Modelled from the spec: the enumeration `ISpxAudioPump::State` is declared in
`ispxinterfaces.h`, which is not among the sources; the spec gives it as
{NoInput, Idle, Processing}. -/
inductive State where
  | NoInput
  | Idle
  | Processing
  deriving DecidableEq, Repr

/-- Modelled from the spec: the enumeration `AUDIO_STATE` of the device layer is
declared in a header that is not among the sources. `UpdateState` names three of
its values; every other value is `other code`. -/
inductive AUDIO_STATE where
  | AUDIO_STATE_STARTING
  | AUDIO_STATE_STOPPED
  | AUDIO_STATE_RUNNING
  | other (code : Nat)
  deriving DecidableEq, Repr

/-- Modelled from the spec: the result type `AUDIO_RESULT` of the device layer is
declared in a header that is not among the sources. The code only compares it
with `AUDIO_RESULT_OK`; every other value is `failure code`. -/
inductive AUDIO_RESULT where
  | AUDIO_RESULT_OK
  | failure (code : Nat)
  deriving DecidableEq, Repr

/-- The error codes thrown by `SPX_IFTRUE_THROW_HR` and `SPX_THROW_ON_FAIL` in the
two source files (spec names: InvalidArgument, AlreadyPumping, DeviceError,
Timeout, InvalidState, DeviceUnavailable, AlreadyInitialized). -/
inductive SpxErr where
  | SPXERR_INVALID_ARG
  | SPXERR_AUDIO_IS_PUMPING
  | SPXERR_MIC_ERROR
  | SPXERR_TIMEOUT
  | SPXERR_INVALID_STATE
  | SPXERR_MIC_NOT_AVAILABLE
  | SPXERR_ALREADY_INITIALIZED
  deriving DecidableEq, Repr

/-- The format descriptor `SPXWAVEFORMATEX`: the seven fields the constructor of
the pump initialises, in order. -/
structure SPXWAVEFORMATEX where
  wFormatTag : Nat
  nChannels : Nat
  nSamplesPerSec : Nat
  nAvgBytesPerSec : Nat
  nBlockAlign : Nat
  wBitsPerSample : Nat
  cbSize : Nat
  deriving DecidableEq, Repr

/-- The device-layer format `AUDIO_WAVEFORMAT`: the six fields
`SetOptionsBeforeCreateAudioHandle` fills in. -/
structure AUDIO_WAVEFORMAT where
  wFormatTag : Nat
  nChannels : Nat
  nSamplesPerSec : Nat
  nAvgBytesPerSec : Nat
  nBlockAlign : Nat
  wBitsPerSample : Nat
  deriving DecidableEq, Repr

/-- The constants of the constructor's initialiser list; their values are defined
in a header that is not among the sources, so they are a parameter. -/
structure FormatConstants where
  WAVE_FORMAT_PCM : Nat
  CHANNELS : Nat
  SAMPLES_PER_SECOND : Nat
  AVG_BYTES_PER_SECOND : Nat
  BLOCK_ALIGN : Nat
  BITS_PER_SAMPLE : Nat
  deriving DecidableEq, Repr

/-- A byte of memory. -/
abbrev Byte := Nat

/-- A call the pump makes to the outside: to the sink (`SetFormat`,
`ProcessAudio`), to the device layer (`audio_*`) or to its condition variable
(`notify_one`). A chunk is named by the number of its memory block. -/
inductive Call where
  | SetFormat (sink : Nat) (format : Option SPXWAVEFORMATEX)
  | ProcessAudio (sink : Nat) (chunk : Nat) (size : Nat)
  | audio_create_with_parameters (format : AUDIO_WAVEFORMAT)
  | audio_setcallbacks (handle : Nat)
  | audio_destroy (handle : Option Nat)
  | audio_input_start (handle : Nat)
  | audio_input_stop (handle : Nat)
  | notify_one
  deriving DecidableEq, Repr

/-! ## The microphone pump -/

/-- The member variables of `CSpxMicrophonePumpBase` that the source file reads
or writes. -/
structure CSpxMicrophonePumpBase where
  m_state : State
  m_format : SPXWAVEFORMATEX
  m_audioHandle : Option Nat
  m_sink : Option Nat
  deriving DecidableEq, Repr

/-- What a member function did: the value it returned or the error it threw, the
object afterwards, and the calls it made, in order. -/
structure Outcome (α : Type) where
  result : Except SpxErr α
  pump : CSpxMicrophonePumpBase
  calls : List Call

/-- The constructor `CSpxMicrophonePumpBase::CSpxMicrophonePumpBase` (lines
22-26): state NoInput and the default PCM format with `cbSize` 0. Modelled from
the spec: the initial values of `m_audioHandle` and `m_sink` are given by the
class declaration, which is not among the sources; the spec has no device opened
and no sink registered before `Init` and `Start`. -/
def CSpxMicrophonePumpBase.ctor (k : FormatConstants) :
    CSpxMicrophonePumpBase :=
  { m_state := State.NoInput
    m_format :=
      { wFormatTag := k.WAVE_FORMAT_PCM
        nChannels := k.CHANNELS
        nSamplesPerSec := k.SAMPLES_PER_SECOND
        nAvgBytesPerSec := k.AVG_BYTES_PER_SECOND
        nBlockAlign := k.BLOCK_ALIGN
        wBitsPerSample := k.BITS_PER_SAMPLE
        cbSize := 0 }
    m_audioHandle := none
    m_sink := none }

/-- `SetOptionsBeforeCreateAudioHandle` (lines 51-54). -/
def CSpxMicrophonePumpBase.SetOptionsBeforeCreateAudioHandle
    (p : CSpxMicrophonePumpBase) : AUDIO_WAVEFORMAT :=
  { wFormatTag := p.m_format.wFormatTag
    nChannels := p.m_format.nChannels
    nSamplesPerSec := p.m_format.nSamplesPerSec
    nAvgBytesPerSec := p.m_format.nAvgBytesPerSec
    nBlockAlign := p.m_format.nBlockAlign
    wBitsPerSample := p.m_format.wBitsPerSample }

/-- `SetOptionsAfterCreateAudioHandle` (lines 56-58): an empty body. -/
def CSpxMicrophonePumpBase.SetOptionsAfterCreateAudioHandle
    (p : CSpxMicrophonePumpBase) : CSpxMicrophonePumpBase := p

/-- `Init` (lines 28-44). `created` is what `audio_create_with_parameters`
returns and `registered` what `audio_setcallbacks` returns. -/
def CSpxMicrophonePumpBase.Init (p : CSpxMicrophonePumpBase)
    (created : Option Nat) (registered : AUDIO_RESULT) : Outcome Unit :=
  let sys_audio_format := p.SetOptionsBeforeCreateAudioHandle
  let p1 := { p with m_audioHandle := created }
  match created with
  | none =>
    ⟨.error .SPXERR_MIC_NOT_AVAILABLE, p1,
      [.audio_create_with_parameters sys_audio_format]⟩
  | some h =>
    if registered ≠ .AUDIO_RESULT_OK then
      ⟨.error .SPXERR_MIC_ERROR, p1,
        [.audio_create_with_parameters sys_audio_format, .audio_setcallbacks h]⟩
    else
      ⟨.ok (), p1.SetOptionsAfterCreateAudioHandle,
        [.audio_create_with_parameters sys_audio_format, .audio_setcallbacks h]⟩

/-- `Term` (lines 46-49): the handle is handed to `audio_destroy`; the member is
not reset. -/
def CSpxMicrophonePumpBase.Term (p : CSpxMicrophonePumpBase) : Outcome Unit :=
  ⟨.ok (), p, [.audio_destroy p.m_audioHandle]⟩

/-- `GetState` (lines 125-130). -/
def CSpxMicrophonePumpBase.GetState (p : CSpxMicrophonePumpBase) : Outcome State :=
  ⟨.ok p.m_state, p, []⟩

/-- `UpdateState` (lines 133-163), called by the capture thread. -/
def CSpxMicrophonePumpBase.UpdateState (p : CSpxMicrophonePumpBase)
    (state : AUDIO_STATE) : Outcome Unit :=
  match p.m_sink with
  | none => ⟨.error .SPXERR_INVALID_ARG, p, []⟩
  | some sink =>
    match state with
    | .AUDIO_STATE_STARTING =>
      ⟨.ok (), { p with m_state := State.Processing },
        [.SetFormat sink (some p.m_format), .notify_one]⟩
    | .AUDIO_STATE_STOPPED =>
      ⟨.ok (), { p with m_state := State.Idle },
        [.SetFormat sink none, .notify_one]⟩
    | .AUDIO_STATE_RUNNING => ⟨.ok (), p, []⟩
    | .other _ => ⟨.error .SPXERR_INVALID_STATE, p, []⟩

/-! ## The capture thread and the condition variable -/

/-- The capture thread delivers the events `evs` one after the other, each through
`OnInputStateChange`, that is `UpdateState`, while the control thread does not
hold the mutex. An error thrown by `UpdateState` is thrown on the capture thread
and leaves the pump as it was. The result is the pump afterwards and the calls
made. -/
def captureThread (p : CSpxMicrophonePumpBase) :
    List AUDIO_STATE → CSpxMicrophonePumpBase × List Call
  | [] => (p, [])
  | ev :: rest =>
    let o := p.UpdateState ev
    let r := captureThread o.pump rest
    (r.1, o.calls ++ r.2)

/-- What happens while the control thread is blocked in `m_cv.wait_for`: the
capture thread delivers an event (`capture`), or the control thread wakes up, by
a notification or spuriously, takes the mutex again and evaluates the predicate
of the wait (`wake`). The end of the list is the expiry of the timeout. -/
inductive WaitStep where
  | capture (state : AUDIO_STATE)
  | wake
  deriving DecidableEq, Repr

/-- The loop of `wait_for` once the control thread is blocked. At the expiry of
the timeout `wait_for` returns the value of the predicate; at a wake-up it
returns true if the predicate holds and blocks again otherwise. -/
def waitLoop (pred : State → Bool) (p : CSpxMicrophonePumpBase) :
    List WaitStep → Bool × CSpxMicrophonePumpBase × List Call
  | [] => (pred p.m_state, p, [])
  | .wake :: rest =>
    if pred p.m_state then (true, p, []) else waitLoop pred p rest
  | .capture ev :: rest =>
    let o := p.UpdateState ev
    let r := waitLoop pred o.pump rest
    (r.1, r.2.1, o.calls ++ r.2.2)

/-- The call `m_cv.wait_for(lock, timeout, pred)`: the predicate is evaluated
first, under the mutex, and the thread blocks only if it is false. -/
def wait_for (pred : State → Bool) (p : CSpxMicrophonePumpBase)
    (sched : List WaitStep) : Bool × CSpxMicrophonePumpBase × List Call :=
  if pred p.m_state then (true, p, []) else waitLoop pred p sched

/-- The events the capture thread delivers in a schedule of the wait. -/
def captured : List WaitStep → List AUDIO_STATE
  | [] => []
  | .capture ev :: rest => ev :: captured rest
  | .wake :: rest => captured rest

/-! ## Start and Stop -/

/-- The predicate of the wait in `StartPump` (line 91). -/
def startPred (state : State) : Bool :=
  state != State.NoInput && state != State.Idle

/-- The predicate of the wait in `StopPump` (line 119). -/
def stopPred (state : State) : Bool :=
  state != State.Processing

/-- `StartPump` (lines 70-93). `started` is what `audio_input_start` returns,
`early` the events the capture thread delivers after the device was started and
before the control thread takes the mutex for the wait, and `sched` what happens
during the wait. -/
def CSpxMicrophonePumpBase.StartPump (p : CSpxMicrophonePumpBase)
    (processor : Option Nat) (started : AUDIO_RESULT)
    (early : List AUDIO_STATE) (sched : List WaitStep) : Outcome Unit :=
  match processor with
  | none => ⟨.error .SPXERR_INVALID_ARG, p, []⟩
  | some sink =>
    match p.m_audioHandle with
    | none => ⟨.error .SPXERR_INVALID_ARG, p, []⟩
    | some h =>
      if p.m_state = State.Processing then
        ⟨.error .SPXERR_AUDIO_IS_PUMPING, p, []⟩
      else
        let p1 := { p with m_sink := some sink }
        if started ≠ .AUDIO_RESULT_OK then
          ⟨.error .SPXERR_MIC_ERROR, p1, [.audio_input_start h]⟩
        else
          let c := captureThread p1 early
          let w := wait_for startPred c.1 sched
          ⟨if w.1 = false then .error .SPXERR_TIMEOUT else .ok (), w.2.1,
            [.audio_input_start h] ++ c.2 ++ w.2.2⟩

/-- Modelled from the spec: the scope guard `ReleaseSink`, declared in the class
header, which is not among the sources. `StopPump` constructs it on `m_sink` in
its first statement (line 97); by the spec it sets the sink reference to empty
when the scope is left, on a return and on a thrown error alike. -/
def ReleaseSink {α : Type} (o : Outcome α) : Outcome α :=
  { o with pump := { o.pump with m_sink := none } }

/-- `StopPump` (lines 95-123). `stopped` is what `audio_input_stop` returns,
`early` the events the capture thread delivers after the device was asked to stop
and before the control thread takes the mutex for the wait, and `sched` what
happens during the wait. The value of `wait_for` is discarded. -/
def CSpxMicrophonePumpBase.StopPump (p : CSpxMicrophonePumpBase)
    (stopped : AUDIO_RESULT) (early : List AUDIO_STATE) (sched : List WaitStep) :
    Outcome Unit :=
  ReleaseSink <|
    match p.m_audioHandle with
    | none => ⟨.error .SPXERR_INVALID_ARG, p, []⟩
    | some h =>
      match p.m_sink with
      | none => ⟨.error .SPXERR_INVALID_ARG, p, []⟩
      | some _ =>
        if p.m_state = State.NoInput ∨ p.m_state = State.Idle then
          ⟨.ok (), p, []⟩
        else
          if stopped ≠ .AUDIO_RESULT_OK then
            ⟨.error .SPXERR_MIC_ERROR, p, [.audio_input_stop h]⟩
          else
            let c := captureThread p early
            let w := wait_for stopPred c.1 sched
            ⟨.ok (), w.2.1, [.audio_input_stop h] ++ c.2 ++ w.2.2⟩

/-! ## Memory, Process and GetFormat -/

/-- The memory that holds audio buffers: a list of blocks of bytes; a non-null
buffer pointer is the number of a block. -/
abbrev Heap := List (List Byte)

/-- The call `memcpy(dst, src, n)` on the contents of two blocks: the first `n`
bytes of `dst` become the first `n` bytes of `src`. In C both blocks must hold at
least `n` bytes. -/
def memcpy (dst src : List Byte) (n : Nat) : List Byte :=
  src.take n ++ dst.drop n

/-- Modelled from the spec: `SpxAllocSharedAudioBuffer` is defined outside the
sources; by the spec it allocates a fresh reference-counted byte buffer of `size`
bytes. The fresh block is the next unused block number. -/
def SpxAllocSharedAudioBuffer (heap : Heap) (size : Nat) : Nat × Heap :=
  (heap.length, heap ++ [List.replicate size 0])

/-- A later write of the byte `v` at offset `i` of block `b`. -/
def writeByte (heap : Heap) (b i : Nat) (v : Byte) : Heap :=
  heap.set b ((heap.getD b []).set i v)

/-- `Process` (lines 165-178), called by the capture thread with a buffer of the
device layer. The result is the outcome and the memory afterwards. -/
def CSpxMicrophonePumpBase.Process (p : CSpxMicrophonePumpBase) (heap : Heap)
    (pBuffer : Option Nat) (size : Nat) : Outcome Int × Heap :=
  match p.m_sink with
  | none => (⟨.error .SPXERR_INVALID_ARG, p, []⟩, heap)
  | some sink =>
    match pBuffer with
    | none => (⟨.ok 0, p, []⟩, heap)
    | some b =>
      let a := SpxAllocSharedAudioBuffer heap size
      let sharedBuffer := a.1
      let copied := memcpy (a.2.getD sharedBuffer []) (a.2.getD b []) size
      (⟨.ok 0, p, [.ProcessAudio sink sharedBuffer size]⟩, a.2.set sharedBuffer copied)

/-- Modelled from the spec: the memory image of a format descriptor, a fixed
header followed by `cbSize` trailing bytes. The declaration of `SPXWAVEFORMATEX`
is not among the sources; the header is taken as the seven fields in order,
little-endian, without padding (18 bytes). -/
def headerBytes (f : SPXWAVEFORMATEX) : List Byte :=
  [f.wFormatTag % 256, f.wFormatTag / 256 % 256,
   f.nChannels % 256, f.nChannels / 256 % 256,
   f.nSamplesPerSec % 256, f.nSamplesPerSec / 256 % 256,
   f.nSamplesPerSec / 65536 % 256, f.nSamplesPerSec / 16777216 % 256,
   f.nAvgBytesPerSec % 256, f.nAvgBytesPerSec / 256 % 256,
   f.nAvgBytesPerSec / 65536 % 256, f.nAvgBytesPerSec / 16777216 % 256,
   f.nBlockAlign % 256, f.nBlockAlign / 256 % 256,
   f.wBitsPerSample % 256, f.wBitsPerSample / 256 % 256,
   f.cbSize % 256, f.cbSize / 256 % 256]

/-- The value of `sizeof(SPXWAVEFORMATEX)`, the length of `headerBytes`. -/
def sizeofSPXWAVEFORMATEX : Nat := 18

/-- `GetFormat` (lines 60-68). `format` is the content of the destination buffer,
`none` for a null pointer; the result is the outcome and the content of the
destination afterwards. The sum is truncated to `uint16_t`. -/
def CSpxMicrophonePumpBase.GetFormat (p : CSpxMicrophonePumpBase)
    (format : Option (List Byte)) (size : Nat) :
    Outcome Nat × Option (List Byte) :=
  let totalSize := (sizeofSPXWAVEFORMATEX + p.m_format.cbSize) % 65536
  match format with
  | none => (⟨.ok totalSize, p, []⟩, none)
  | some dst =>
    (⟨.ok totalSize, p, []⟩, some (memcpy dst (headerBytes p.m_format) (min totalSize size)))

/-! ## The pull audio input stream -/

/-- How a member function of the pull stream ends when it does not return: an
error thrown by `SPX_IFTRUE_THROW_HR`, the invocation of an empty callback, or
the dereference of a null pointer. The last two are not errors of the error
taxonomy: the call does not return a value. -/
inductive Fault where
  | thrown (e : SpxErr)
  | emptyCallback
  | nullPointer
  deriving DecidableEq, Repr

/-- A call the pull stream makes to a callback of the producer, with its
arguments. -/
inductive PullCall where
  | readCallback (buffer : Option Nat) (bytesToRead : Nat)
  | closeCallback
  | getPropertyCallback (propertyId : Nat) (maxLen : Nat)
  deriving DecidableEq, Repr

/-- The member variables of `CSpxPullAudioInputStream`. The stored format is the
content of the owned allocation. Modelled from the spec: the callback types are
declared in the class header, which is not among the sources. A read callback
maps the buffer and the number of bytes asked for to the number of bytes read; a
close callback takes and returns nothing, so only its presence is recorded; a
property callback maps the property and the length of the scratch buffer to the
bytes it writes there. An unset callback compares equal to `nullptr`. -/
structure CSpxPullAudioInputStream where
  m_format : Option (List Byte)
  m_readCallback : Option (Option Nat → Nat → Nat)
  m_closeCallback : Option Unit
  m_getPropertyCallback : Option (Nat → Nat → List Byte)

/-- What a member function of the pull stream did: the value returned or the way
it ended otherwise, the object afterwards, and the callbacks invoked, in order. -/
structure PullOutcome (α : Type) where
  result : Except Fault α
  stream : CSpxPullAudioInputStream
  calls : List PullCall

/-- The constructor (lines 21-24): an empty body. Modelled from the spec: the
members are default-initialised by the class declaration, no format and no
callback being set. -/
def CSpxPullAudioInputStream.ctor : CSpxPullAudioInputStream :=
  { m_format := none, m_readCallback := none, m_closeCallback := none,
    m_getPropertyCallback := none }

/-- The field `cbSize` of the descriptor whose memory image is `image`: the two
bytes at offset 16 of the layout `headerBytes`, little-endian. -/
def cbSizeOf (image : List Byte) : Nat :=
  image.getD 16 0 + 256 * image.getD 17 0

/-- Modelled from the spec: `SpxAllocWAVEFORMATEX` is defined outside the
sources; it allocates an owned buffer of the size asked for. -/
def SpxAllocWAVEFORMATEX (sizeInBytes : Nat) : List Byte :=
  List.replicate sizeInBytes 0

/-- `SetFormat` (lines 31-41). `format` is the memory the non-null argument points
to: the header and the trailing bytes. The size is a `size_t` and does not wrap. -/
def CSpxPullAudioInputStream.SetFormat (s : CSpxPullAudioInputStream)
    (format : List Byte) : PullOutcome Unit :=
  match s.m_format with
  | some _ => ⟨.error (.thrown .SPXERR_ALREADY_INITIALIZED), s, []⟩
  | none =>
    let formatSize := sizeofSPXWAVEFORMATEX + cbSizeOf format
    let buffer := SpxAllocWAVEFORMATEX formatSize
    ⟨.ok (), { s with m_format := some (memcpy buffer format formatSize) }, []⟩

/-- `SetCallbacks` (lines 43-47). -/
def CSpxPullAudioInputStream.SetCallbacks (s : CSpxPullAudioInputStream)
    (readCallback : Option (Option Nat → Nat → Nat)) (closeCallback : Option Unit) :
    PullOutcome Unit :=
  ⟨.ok (), { s with m_readCallback := readCallback, m_closeCallback := closeCallback }, []⟩

/-- `SetPropertyCallback` (lines 49-52). -/
def CSpxPullAudioInputStream.SetPropertyCallback (s : CSpxPullAudioInputStream)
    (getPropertyCallBack : Option (Nat → Nat → List Byte)) : PullOutcome Unit :=
  ⟨.ok (), { s with m_getPropertyCallback := getPropertyCallBack }, []⟩

/-- `GetFormat` (lines 54-65). `formatBuffer` is the content of the destination
buffer, `none` for a null pointer; the result is the outcome and the content of
the destination afterwards. `formatSizeRequired` is a `uint16_t`: the sum is
truncated to 16 bits. Without a stored format `m_format->cbSize` dereferences a
null pointer. -/
def CSpxPullAudioInputStream.GetFormat (s : CSpxPullAudioInputStream)
    (formatBuffer : Option (List Byte)) (formatSize : Nat) :
    PullOutcome Nat × Option (List Byte) :=
  match s.m_format with
  | none => (⟨.error .nullPointer, s, []⟩, formatBuffer)
  | some stored =>
    let formatSizeRequired := (sizeofSPXWAVEFORMATEX + cbSizeOf stored) % 65536
    match formatBuffer with
    | none => (⟨.ok formatSizeRequired, s, []⟩, none)
    | some dst =>
      let size := min formatSize formatSizeRequired
      (⟨.ok formatSizeRequired, s, []⟩, some (memcpy dst stored size))

/-- `Read` (lines 67-71): the read callback is invoked without a test for
`nullptr`. -/
def CSpxPullAudioInputStream.Read (s : CSpxPullAudioInputStream)
    (buffer : Option Nat) (bytesToRead : Nat) : PullOutcome Nat :=
  match s.m_readCallback with
  | none => ⟨.error .emptyCallback, s, []⟩
  | some readCallback =>
    let bytesActuallyRead := readCallback buffer bytesToRead
    ⟨.ok bytesActuallyRead, s, [.readCallback buffer bytesToRead]⟩

/-- `Close` (lines 73-80). -/
def CSpxPullAudioInputStream.Close (s : CSpxPullAudioInputStream) : PullOutcome Unit :=
  match s.m_closeCallback with
  | some _ => ⟨.ok (), s, [.closeCallback]⟩
  | none => ⟨.ok (), s, []⟩

/-- `GetProperty` (lines 83-94). `maxLen` is the constant
`m_maxPropertyLenInBytes` of the class declaration. The scratch buffer is zeroed,
the callback writes into it, and the result is the C string in it: the bytes
before the first zero. Without a callback the result is the empty string. -/
def CSpxPullAudioInputStream.GetProperty (s : CSpxPullAudioInputStream)
    (maxLen : Nat) (propertyId : Nat) : PullOutcome (List Byte) :=
  match s.m_getPropertyCallback with
  | some getPropertyCallback =>
    let result := List.replicate maxLen 0
    let written := getPropertyCallback propertyId maxLen
    let filled := memcpy result written (min maxLen written.length)
    ⟨.ok (filled.takeWhile (fun c => c != 0)), s,
      [.getPropertyCallback propertyId maxLen]⟩
  | none => ⟨.ok [], s, []⟩

/-! ## Reading the record of calls -/

/-- The arguments of the `SetFormat` calls that the sink `sink` received, in
order. -/
def setFormatCalls (sink : Nat) : List Call → List (Option SPXWAVEFORMATEX)
  | [] => []
  | .SetFormat s f :: rest =>
    if s = sink then f :: setFormatCalls sink rest else setFormatCalls sink rest
  | _ :: rest => setFormatCalls sink rest

/-- Whether a call is a call to a sink. -/
def isSinkCall : Call → Bool
  | .SetFormat _ _ => true
  | .ProcessAudio _ _ _ => true
  | _ => false

/-- Whether a call is a call to the device layer. -/
def isDeviceCall : Call → Bool
  | .audio_create_with_parameters _ => true
  | .audio_setcallbacks _ => true
  | .audio_destroy _ => true
  | .audio_input_start _ => true
  | .audio_input_stop _ => true
  | _ => false

/-! ## Operations in sequence -/

/-- An operation on the pump, with its arguments and with what the outside
answers while it runs. -/
inductive Op where
  | Init (created : Option Nat) (registered : AUDIO_RESULT)
  | Term
  | GetFormat (format : Option (List Byte)) (size : Nat)
  | StartPump (processor : Option Nat) (started : AUDIO_RESULT)
      (early : List AUDIO_STATE) (sched : List WaitStep)
  | StopPump (stopped : AUDIO_RESULT) (early : List AUDIO_STATE) (sched : List WaitStep)
  | GetState
  | UpdateState (state : AUDIO_STATE)
  | Process (pBuffer : Option Nat) (size : Nat)

/-- The pump and the memory after an operation, be it returned or thrown. -/
def Op.run (w : CSpxMicrophonePumpBase × Heap) : Op → CSpxMicrophonePumpBase × Heap
  | .Init created registered => ((w.1.Init created registered).pump, w.2)
  | .Term => (w.1.Term.pump, w.2)
  | .GetFormat format size => ((w.1.GetFormat format size).1.pump, w.2)
  | .StartPump processor started early sched =>
    ((w.1.StartPump processor started early sched).pump, w.2)
  | .StopPump stopped early sched => ((w.1.StopPump stopped early sched).pump, w.2)
  | .GetState => (w.1.GetState.pump, w.2)
  | .UpdateState state => ((w.1.UpdateState state).pump, w.2)
  | .Process pBuffer size =>
    ((w.1.Process w.2 pBuffer size).1.pump, (w.1.Process w.2 pBuffer size).2)

/-- The pump and the memory after a sequence of operations. -/
def runAll (w : CSpxMicrophonePumpBase × Heap) : List Op → CSpxMicrophonePumpBase × Heap
  | [] => w
  | op :: rest => runAll (op.run w) rest

/-- The events the capture thread delivers through `UpdateState` while an
operation runs: none for an operation that does not wait, and for `UpdateState`
itself the event it is called with. -/
def Op.events : Op → List AUDIO_STATE
  | .StartPump _ _ early sched => early ++ captured sched
  | .StopPump _ early sched => early ++ captured sched
  | .UpdateState state => [state]
  | _ => []

/-- The sink that is registered while the capture thread runs during an
operation: the one passed to `StartPump`, and the one of the pump otherwise. -/
def Op.sinkDuring (p : CSpxMicrophonePumpBase) : Op → Option Nat
  | .StartPump processor _ _ _ => processor
  | _ => p.m_sink

/-- The error an outcome carries, if it is an error. -/
def errorOf {α : Type} : Except SpxErr α → Option SpxErr
  | .error e => some e
  | .ok _ => none

/-! ## The mutex -/

/-- The two members the mutex `m_mutex` is meant to guard. -/
inductive Member where
  | m_state
  | m_sink
  deriving DecidableEq, Repr

/-- A step of one thread in a member function, with its line in the source: a
`unique_lock` on `m_mutex` is constructed (`acquire`) or destroyed at the end of
its scope (`release`), or a guarded member is read or written. -/
inductive Step where
  | acquire (line : Nat)
  | release (line : Nat)
  | read (m : Member) (line : Nat)
  | write (m : Member) (line : Nat)
  deriving DecidableEq, Repr

/-- The reads and writes of a sequence of steps that happen while the thread does
not hold the mutex; `held` tells whether it holds it at the beginning. -/
def unlockedAccesses (held : Bool) : List Step → List Step
  | [] => []
  | .acquire _ :: rest => unlockedAccesses true rest
  | .release _ :: rest => unlockedAccesses false rest
  | .read m line :: rest =>
    if held then unlockedAccesses held rest
    else .read m line :: unlockedAccesses held rest
  | .write m line :: rest =>
    if held then unlockedAccesses held rest
    else .write m line :: unlockedAccesses held rest

/-- The steps of `m_cv.wait_for` at `line`, entered with the mutex held: the
predicate reads `m_state`; each time the thread blocks it releases the mutex, and
it takes it again before the predicate is evaluated again. -/
def waitSteps (line : Nat) : Nat → List Step
  | 0 => [.read .m_state line]
  | wakeups + 1 =>
    waitSteps line wakeups ++ [.release line, .acquire line, .read .m_state line]

/-- The steps of `StartPump` (lines 70-93) on the path that the pump, the sink
passed and the answer of the device select, when the wait blocks `wakeups`
times. -/
def StartPump_steps (p : CSpxMicrophonePumpBase) (processor : Option Nat)
    (started : AUDIO_RESULT) (wakeups : Nat) : List Step :=
  match processor with
  | none => [.acquire 75, .release 77]
  | some _ =>
    match p.m_audioHandle with
    | none => [.acquire 75, .release 78]
    | some _ =>
      if p.m_state = State.Processing then
        [.acquire 75, .read .m_state 79, .release 79]
      else
        [.acquire 75, .read .m_state 79, .write .m_sink 81, .release 82] ++
          (if started ≠ .AUDIO_RESULT_OK then []
           else [.acquire 89] ++ waitSteps 91 wakeups ++ [.release 93])

/-- The steps of `StopPump` (lines 95-123). The guard `resetSinkWhenExit` of line
97 writes `m_sink` when the function is left, after every `unique_lock` of the
function, each declared in an inner block, is destroyed. -/
def StopPump_steps (p : CSpxMicrophonePumpBase) (stopped : AUDIO_RESULT)
    (wakeups : Nat) : List Step :=
  match p.m_audioHandle with
  | none => [.write .m_sink 97]
  | some _ =>
    [.read .m_sink 102] ++
      match p.m_sink with
      | none => [.write .m_sink 97]
      | some _ =>
        [.acquire 105, .read .m_state 106] ++
          (if p.m_state = State.NoInput ∨ p.m_state = State.Idle then
            [.release 109, .write .m_sink 97]
           else
            [.release 111] ++
              (if stopped ≠ .AUDIO_RESULT_OK then [.write .m_sink 97]
               else
                [.acquire 118] ++ waitSteps 119 wakeups ++
                  [.release 120, .write .m_sink 97]))

/-- The steps of `GetState` (lines 125-130). -/
def GetState_steps : List Step :=
  [.acquire 128, .read .m_state 129, .release 130]

/-- The steps of `UpdateState` (lines 133-163). -/
def UpdateState_steps (p : CSpxMicrophonePumpBase) (state : AUDIO_STATE) : List Step :=
  [.acquire 136, .read .m_sink 137] ++
    match p.m_sink with
    | none => [.release 137]
    | some _ =>
      match state with
      | .AUDIO_STATE_STARTING => [.read .m_sink 143, .write .m_state 144, .release 163]
      | .AUDIO_STATE_STOPPED => [.read .m_sink 150, .write .m_state 151, .release 163]
      | .AUDIO_STATE_RUNNING => [.release 163]
      | .other _ => [.release 160]

/-- The steps of `Process` (lines 165-178): no `unique_lock` is constructed. -/
def Process_steps (p : CSpxMicrophonePumpBase) (pBuffer : Option Nat) : List Step :=
  [.read .m_sink 168] ++
    match p.m_sink with
    | none => []
    | some _ =>
      match pBuffer with
      | none => []
      | some _ => [.read .m_sink 174]

/-- Whether a step reads or writes the member `m`. -/
def Step.touches (m : Member) : Step → Bool
  | .read m1 _ => m1 = m
  | .write m1 _ => m1 = m
  | _ => false

/-! ## Sample values -/

/-- Sample values of the constants of the constructor: 16 kHz, 16 bit, mono
PCM. -/
def pcm : FormatConstants :=
  { WAVE_FORMAT_PCM := 1, CHANNELS := 1, SAMPLES_PER_SECOND := 16000,
    AVG_BYTES_PER_SECOND := 32000, BLOCK_ALIGN := 2, BITS_PER_SAMPLE := 16 }

/-- A sample pump: the constructed pump with the given state, device handle and
sink. -/
def samplePump (st : State) (handle sink : Option Nat) : CSpxMicrophonePumpBase :=
  { CSpxMicrophonePumpBase.ctor pcm with
    m_state := st, m_audioHandle := handle, m_sink := sink }

/-- A sample format descriptor in memory: the PCM header with the extension length
`cbSize`, followed by that many trailing bytes of value 7. -/
def sampleFormat (cbSize : Nat) : List Byte :=
  headerBytes { (CSpxMicrophonePumpBase.ctor pcm).m_format with cbSize := cbSize } ++
    List.replicate cbSize 7

/-! ## Lemmas on UpdateState, the capture thread and the wait -/

theorem setFormatCalls_append (sink : Nat) (xs ys : List Call) :
    setFormatCalls sink (xs ++ ys) = setFormatCalls sink xs ++ setFormatCalls sink ys := by
  induction xs with
  | nil => rfl
  | cons c rest ih =>
    cases c <;> simp [setFormatCalls, ih]
    split <;> simp

theorem UpdateState_keeps (p : CSpxMicrophonePumpBase) (ev : AUDIO_STATE) :
    (p.UpdateState ev).pump.m_sink = p.m_sink ∧
    (p.UpdateState ev).pump.m_format = p.m_format ∧
    (p.UpdateState ev).pump.m_audioHandle = p.m_audioHandle := by
  rcases p with ⟨st, f, h, sink⟩
  cases sink <;> cases ev <;> simp [CSpxMicrophonePumpBase.UpdateState]

theorem captureThread_keeps (evs : List AUDIO_STATE) (p : CSpxMicrophonePumpBase) :
    (captureThread p evs).1.m_sink = p.m_sink ∧
    (captureThread p evs).1.m_format = p.m_format ∧
    (captureThread p evs).1.m_audioHandle = p.m_audioHandle := by
  induction evs generalizing p with
  | nil => simp [captureThread]
  | cons ev rest ih =>
    have h := UpdateState_keeps p ev
    have h2 := ih (p.UpdateState ev).pump
    simp only [captureThread]
    exact ⟨h2.1.trans h.1, h2.2.1.trans h.2.1, h2.2.2.trans h.2.2⟩

theorem waitLoop_keeps (pred : State → Bool) (sched : List WaitStep)
    (p : CSpxMicrophonePumpBase) :
    (waitLoop pred p sched).2.1.m_sink = p.m_sink ∧
    (waitLoop pred p sched).2.1.m_format = p.m_format ∧
    (waitLoop pred p sched).2.1.m_audioHandle = p.m_audioHandle := by
  induction sched generalizing p with
  | nil => simp [waitLoop]
  | cons st rest ih =>
    cases st with
    | wake =>
      simp only [waitLoop]
      split
      · simp
      · exact ih p
    | capture ev =>
      have h := UpdateState_keeps p ev
      have h2 := ih (p.UpdateState ev).pump
      simp only [waitLoop]
      exact ⟨h2.1.trans h.1, h2.2.1.trans h.2.1, h2.2.2.trans h.2.2⟩

theorem wait_for_keeps (pred : State → Bool) (sched : List WaitStep)
    (p : CSpxMicrophonePumpBase) :
    (wait_for pred p sched).2.1.m_sink = p.m_sink ∧
    (wait_for pred p sched).2.1.m_format = p.m_format ∧
    (wait_for pred p sched).2.1.m_audioHandle = p.m_audioHandle := by
  unfold wait_for
  split
  · simp
  · exact waitLoop_keeps pred sched p

/-- A wait that returns true returns in a state that satisfies its predicate, and
a wait that returns false ends in a state that does not. -/
theorem waitLoop_pred (pred : State → Bool) (sched : List WaitStep)
    (p : CSpxMicrophonePumpBase) :
    (waitLoop pred p sched).1 = pred (waitLoop pred p sched).2.1.m_state := by
  induction sched generalizing p with
  | nil => simp [waitLoop]
  | cons st rest ih =>
    cases st with
    | wake =>
      simp only [waitLoop]
      split
      · rename_i h; simp [h]
      · exact ih p
    | capture ev =>
      simp only [waitLoop]
      exact ih _

theorem wait_for_pred (pred : State → Bool) (sched : List WaitStep)
    (p : CSpxMicrophonePumpBase) :
    (wait_for pred p sched).1 = pred (wait_for pred p sched).2.1.m_state := by
  unfold wait_for
  split
  · rename_i h; simp [h]
  · exact waitLoop_pred pred sched p

theorem UpdateState_quiet (p : CSpxMicrophonePumpBase) (ev : AUDIO_STATE)
    (h1 : ev ≠ .AUDIO_STATE_STARTING) (h2 : ev ≠ .AUDIO_STATE_STOPPED) :
    (p.UpdateState ev).pump = p ∧ (p.UpdateState ev).calls = [] := by
  rcases p with ⟨st, f, h, sink⟩
  cases sink <;> cases ev <;> simp_all [CSpxMicrophonePumpBase.UpdateState]

theorem UpdateState_starting (p : CSpxMicrophonePumpBase) (s : Nat)
    (h : p.m_sink = some s) :
    (p.UpdateState .AUDIO_STATE_STARTING).pump = { p with m_state := State.Processing } ∧
    (p.UpdateState .AUDIO_STATE_STARTING).calls =
      [.SetFormat s (some p.m_format), .notify_one] := by
  rcases p with ⟨st, f, hd, sink⟩
  cases sink <;> simp_all [CSpxMicrophonePumpBase.UpdateState]

theorem UpdateState_stopped (p : CSpxMicrophonePumpBase) (s : Nat)
    (h : p.m_sink = some s) :
    (p.UpdateState .AUDIO_STATE_STOPPED).pump = { p with m_state := State.Idle } ∧
    (p.UpdateState .AUDIO_STATE_STOPPED).calls = [.SetFormat s none, .notify_one] := by
  rcases p with ⟨st, f, hd, sink⟩
  cases sink <;> simp_all [CSpxMicrophonePumpBase.UpdateState]

/-- Events other than 'starting' and 'stopped' leave the pump as it is and make no
call. -/
theorem captureThread_quiet (evs : List AUDIO_STATE) (p : CSpxMicrophonePumpBase)
    (h1 : AUDIO_STATE.AUDIO_STATE_STARTING ∉ evs)
    (h2 : AUDIO_STATE.AUDIO_STATE_STOPPED ∉ evs) :
    captureThread p evs = (p, []) := by
  induction evs generalizing p with
  | nil => rfl
  | cons ev rest ih =>
    simp only [List.mem_cons, not_or] at h1 h2
    have hq := UpdateState_quiet p ev (Ne.symm h1.1) (Ne.symm h2.1)
    simp only [captureThread, hq.1, hq.2, ih p h1.2 h2.2, List.nil_append]

/-- Without a 'starting' event the capture thread does not bring the state to
Processing. -/
theorem captureThread_not_processing (evs : List AUDIO_STATE)
    (p : CSpxMicrophonePumpBase)
    (h1 : AUDIO_STATE.AUDIO_STATE_STARTING ∉ evs)
    (hp : p.m_state ≠ State.Processing) :
    (captureThread p evs).1.m_state ≠ State.Processing := by
  induction evs generalizing p with
  | nil => simpa [captureThread] using hp
  | cons ev rest ih =>
    simp only [List.mem_cons, not_or] at h1
    simp only [captureThread]
    apply ih _ h1.2
    rcases p with ⟨st, f, hd, sink⟩
    cases sink <;> cases ev <;> simp_all [CSpxMicrophonePumpBase.UpdateState]

/-- One 'starting' event and no 'stopped' event, delivered to a pump with the sink
`s` registered: the state becomes Processing and `s` receives one `SetFormat`,
with the format of the pump. -/
theorem captureThread_one_start (evs : List AUDIO_STATE) (p : CSpxMicrophonePumpBase)
    (s : Nat) (hs : p.m_sink = some s)
    (h1 : evs.count .AUDIO_STATE_STARTING = 1)
    (h2 : AUDIO_STATE.AUDIO_STATE_STOPPED ∉ evs) :
    (captureThread p evs).1 = { p with m_state := State.Processing } ∧
    setFormatCalls s (captureThread p evs).2 = [some p.m_format] := by
  induction evs generalizing p with
  | nil => simp at h1
  | cons ev rest ih =>
    simp only [List.mem_cons, not_or] at h2
    by_cases hev : ev = .AUDIO_STATE_STARTING
    · subst hev
      have hc : AUDIO_STATE.AUDIO_STATE_STARTING ∉ rest := by
        intro hm
        have := List.count_pos_iff.mpr hm
        simp at h1
        omega
      have hu := UpdateState_starting p s hs
      simp only [captureThread, hu.1, hu.2, captureThread_quiet rest _ hc h2.2]
      simp [setFormatCalls]
    · have hq := UpdateState_quiet p ev hev (Ne.symm h2.1)
      have hcount : rest.count .AUDIO_STATE_STARTING = 1 := by
        rw [List.count_cons_of_ne (Ne.symm hev)] at h1
        exact h1
      have := ih p hs hcount h2.2
      simp only [captureThread, hq.1, hq.2, List.nil_append]
      exact this

/-- A wait for the start in state Processing returns true at once at every
wake-up and at the expiry, if no 'stopped' event arrives in between. -/
theorem waitLoop_start_processing (sched : List WaitStep) (p : CSpxMicrophonePumpBase)
    (hp : p.m_state = State.Processing)
    (h1 : AUDIO_STATE.AUDIO_STATE_STARTING ∉ captured sched)
    (h2 : AUDIO_STATE.AUDIO_STATE_STOPPED ∉ captured sched) :
    waitLoop startPred p sched = (true, p, []) := by
  induction sched generalizing p with
  | nil => simp [waitLoop, startPred, hp]
  | cons st rest ih =>
    cases st with
    | wake => simp [waitLoop, startPred, hp]
    | capture ev =>
      simp only [captured, List.mem_cons, not_or] at h1 h2
      have hq := UpdateState_quiet p ev (Ne.symm h1.1) (Ne.symm h2.1)
      simp only [waitLoop, hq.1, hq.2, ih p hp h1.2 h2.2, List.nil_append]

/-- A wait for the start during which one 'starting' event and no 'stopped' event
arrive returns true in state Processing, and the sink received one `SetFormat`. -/
theorem waitLoop_start_one (sched : List WaitStep) (p : CSpxMicrophonePumpBase)
    (s : Nat) (hs : p.m_sink = some s) (hp : p.m_state ≠ State.Processing)
    (h1 : (captured sched).count .AUDIO_STATE_STARTING = 1)
    (h2 : AUDIO_STATE.AUDIO_STATE_STOPPED ∉ captured sched) :
    (waitLoop startPred p sched).1 = true ∧
    (waitLoop startPred p sched).2.1 = { p with m_state := State.Processing } ∧
    setFormatCalls s (waitLoop startPred p sched).2.2 = [some p.m_format] := by
  induction sched generalizing p with
  | nil => simp [captured] at h1
  | cons st rest ih =>
    cases st with
    | wake =>
      have hf : startPred p.m_state = false := by
        revert hp; cases p.m_state <;> simp [startPred]
      simp only [waitLoop, hf]
      exact ih p hs hp h1 h2
    | capture ev =>
      simp only [captured, List.mem_cons, not_or] at h2
      by_cases hev : ev = .AUDIO_STATE_STARTING
      · subst hev
        have hc : AUDIO_STATE.AUDIO_STATE_STARTING ∉ captured rest := by
          intro hm
          have := List.count_pos_iff.mpr hm
          simp [captured] at h1
          omega
        have hu := UpdateState_starting p s hs
        have hw := waitLoop_start_processing rest
          { p with m_state := State.Processing } rfl hc h2.2
        simp only [waitLoop, hu.1, hu.2, hw]
        simp [setFormatCalls]
      · have hq := UpdateState_quiet p ev hev (Ne.symm h2.1)
        have hcount : (captured rest).count .AUDIO_STATE_STARTING = 1 := by
          simp only [captured] at h1
          rw [List.count_cons_of_ne (Ne.symm hev)] at h1
          exact h1
        have := ih p hs hp hcount h2.2
        simp only [waitLoop, hq.1, hq.2, List.nil_append]
        exact this

/-- Without a 'starting' event the state does not become Processing during a
wait. -/
theorem waitLoop_not_processing (pred : State → Bool) (sched : List WaitStep)
    (p : CSpxMicrophonePumpBase)
    (h1 : AUDIO_STATE.AUDIO_STATE_STARTING ∉ captured sched)
    (hp : p.m_state ≠ State.Processing) :
    (waitLoop pred p sched).2.1.m_state ≠ State.Processing := by
  induction sched generalizing p with
  | nil => simpa [waitLoop] using hp
  | cons st rest ih =>
    cases st with
    | wake =>
      simp only [waitLoop]
      split
      · simpa using hp
      · exact ih p h1 hp
    | capture ev =>
      simp only [captured, List.mem_cons, not_or] at h1
      simp only [waitLoop]
      apply ih _ h1.2
      rcases p with ⟨st, f, hd, sink⟩
      cases sink <;> cases ev <;> simp_all [CSpxMicrophonePumpBase.UpdateState]

/-- The state can only have become Processing through a 'starting' event, which
called `SetFormat` with the format of the pump on the registered sink. -/
theorem captureThread_start_call (evs : List AUDIO_STATE) (p : CSpxMicrophonePumpBase)
    (s : Nat) (hs : p.m_sink = some s) (hp : p.m_state ≠ State.Processing)
    (hend : (captureThread p evs).1.m_state = State.Processing) :
    Call.SetFormat s (some p.m_format) ∈ (captureThread p evs).2 := by
  induction evs generalizing p with
  | nil => exact absurd hend hp
  | cons ev rest ih =>
    simp only [captureThread] at hend ⊢
    by_cases h1 : ev = .AUDIO_STATE_STARTING
    · subst h1
      simp [(UpdateState_starting p s hs).2]
    · by_cases h2 : ev = .AUDIO_STATE_STOPPED
      · subst h2
        have hu := UpdateState_stopped p s hs
        rw [hu.1] at hend ⊢
        have := ih { p with m_state := State.Idle } hs (by simp) hend
        exact List.mem_append_right _ this
      · have hq := UpdateState_quiet p ev h1 h2
        rw [hq.1] at hend ⊢
        exact List.mem_append_right _ (ih p hs hp hend)

theorem waitLoop_start_call (pred : State → Bool) (sched : List WaitStep)
    (p : CSpxMicrophonePumpBase)
    (s : Nat) (hs : p.m_sink = some s) (hp : p.m_state ≠ State.Processing)
    (hend : (waitLoop pred p sched).2.1.m_state = State.Processing) :
    Call.SetFormat s (some p.m_format) ∈ (waitLoop pred p sched).2.2 := by
  induction sched generalizing p with
  | nil => exact absurd (by simpa [waitLoop] using hend) hp
  | cons st rest ih =>
    cases st with
    | wake =>
      simp only [waitLoop] at hend ⊢
      split at hend
      · exact absurd hend hp
      · rename_i hf
        simp only [hf]
        exact ih p hs hp hend
    | capture ev =>
      simp only [waitLoop] at hend ⊢
      by_cases h1 : ev = .AUDIO_STATE_STARTING
      · subst h1
        simp [(UpdateState_starting p s hs).2]
      · by_cases h2 : ev = .AUDIO_STATE_STOPPED
        · subst h2
          have hu := UpdateState_stopped p s hs
          rw [hu.1] at hend ⊢
          have := ih { p with m_state := State.Idle } hs (by simp) hend
          exact List.mem_append_right _ this
        · have hq := UpdateState_quiet p ev h1 h2
          rw [hq.1] at hend ⊢
          exact List.mem_append_right _ (ih p hs hp hend)

theorem startPred_iff (st : State) : startPred st = true ↔ st = State.Processing := by
  cases st <;> simp [startPred]

theorem stopPred_iff (st : State) : stopPred st = true ↔ st ≠ State.Processing := by
  cases st <;> simp [stopPred]

theorem stop_releases_sink_aux (p : CSpxMicrophonePumpBase) (stopped : AUDIO_RESULT)
    (early : List AUDIO_STATE) (sched : List WaitStep) :
    (p.StopPump stopped early sched).pump.m_sink = none := rfl

theorem captureThread_append (a b : List AUDIO_STATE) (p : CSpxMicrophonePumpBase) :
    (captureThread p (a ++ b)).1 = (captureThread (captureThread p a).1 b).1 := by
  induction a generalizing p with
  | nil => rfl
  | cons ev rest ih =>
    simp only [List.cons_append, captureThread]
    exact ih _

/-- The pump after a wait is the pump after the `UpdateState` calls of the events
that were delivered before the wait ended. -/
theorem waitLoop_events (pred : State → Bool) (sched : List WaitStep)
    (p : CSpxMicrophonePumpBase) :
    ∃ evs, evs <+: captured sched ∧ (waitLoop pred p sched).2.1 = (captureThread p evs).1 := by
  induction sched generalizing p with
  | nil => exact ⟨[], List.nil_prefix, rfl⟩
  | cons st rest ih =>
    cases st with
    | wake =>
      simp only [waitLoop, captured]
      split
      · exact ⟨[], List.nil_prefix, rfl⟩
      · exact ih p
    | capture ev =>
      obtain ⟨evs, hpre, heq⟩ := ih (p.UpdateState ev).pump
      refine ⟨ev :: evs, ?_, ?_⟩
      · simp only [captured]
        exact (List.prefix_cons_inj ev).mpr hpre
      · simp only [waitLoop, captureThread, heq]

theorem wait_for_events (pred : State → Bool) (sched : List WaitStep)
    (p : CSpxMicrophonePumpBase) :
    ∃ evs, evs <+: captured sched ∧ (wait_for pred p sched).2.1 = (captureThread p evs).1 := by
  unfold wait_for
  split
  · exact ⟨[], List.nil_prefix, rfl⟩
  · exact waitLoop_events pred sched p

/-- The capture thread never sets the state to NoInput. -/
theorem captureThread_noInput (evs : List AUDIO_STATE) (p : CSpxMicrophonePumpBase)
    (h : (captureThread p evs).1.m_state = State.NoInput) : p.m_state = State.NoInput := by
  induction evs generalizing p with
  | nil => exact h
  | cons ev rest ih =>
    simp only [captureThread] at h
    have hmid := ih _ h
    revert hmid
    obtain ⟨st, f, hd, sk⟩ := p
    cases sk <;> cases ev <;> simp [CSpxMicrophonePumpBase.UpdateState]

theorem heap_set_other (heap : Heap) (z : List Byte) (b c : Nat) (h : b ≠ c) :
    (heap.set b z).getD c [] = heap.getD c [] := by
  simp [List.getD_eq_getElem?_getD, List.getElem?_set, h]

theorem heap_set_same (heap : Heap) (z : List Byte) (b : Nat) (h : b < heap.length) :
    (heap.set b z).getD b [] = z := by
  simp [List.getD_eq_getElem?_getD, List.getElem?_set, h]

theorem heap_fresh (heap : Heap) (y : List Byte) :
    (heap ++ [y]).getD heap.length [] = y := by
  simp [List.getD_eq_getElem?_getD]

theorem heap_old (heap : Heap) (y : List Byte) (j : Nat) (h : j < heap.length) :
    (heap ++ [y]).getD j [] = heap.getD j [] := by
  simp [List.getD_eq_getElem?_getD, List.getElem?_append_left h]

theorem heap_set_fresh (heap : Heap) (x y : List Byte) :
    (heap ++ [x]).set heap.length y = heap ++ [y] := by
  simp [List.set_append]

/-- A `memcpy` of `n` bytes into a fresh block of `n` bytes leaves the first `n`
bytes of the source in it. -/
theorem memcpy_fresh (src : List Byte) (n : Nat) :
    memcpy (List.replicate n 0) src n = src.take n := by
  simp [memcpy]

/-- The memory after `Process` with a non-null buffer and a sink registered: the
memory before and one more block, which holds the first `size` bytes of the
buffer. -/
theorem Process_heap (p : CSpxMicrophonePumpBase) (heap : Heap) (sink b size : Nat)
    (hs : p.m_sink = some sink) (hb : b < heap.length) :
    (p.Process heap (some b) size).2 = heap ++ [(heap.getD b []).take size] := by
  obtain ⟨st, f, hd, sk⟩ := p
  simp only at hs
  subst hs
  simp only [CSpxMicrophonePumpBase.Process, SpxAllocSharedAudioBuffer, heap_fresh,
    heap_old heap _ b hb, memcpy_fresh, heap_set_fresh]

/-! ## C1: the ordering contract of Start -/

/-- C1, the claim as stated is false. On an idle pump with device 1, started with
sink 7, the device accepts the start request and the capture thread delivers a
'starting' event during the wait. When a 'stopped' event follows before the
control thread wakes up, the predicate of the wait is evaluated in state Idle
only: Start fails with Timeout, the state is Idle and the sink received two
`SetFormat` calls. When a second 'starting' event follows instead, Start returns
without error in state Processing, and the sink received two `SetFormat`
calls. -/
theorem start_ordering_contract_counterexample :
    (samplePump .Idle (some 1) none).m_audioHandle = some 1 ∧
    (samplePump .Idle (some 1) none).m_state ≠ State.Processing ∧
    AUDIO_STATE.AUDIO_STATE_STARTING ∈ ([] : List AUDIO_STATE) ++
      captured [.capture .AUDIO_STATE_STARTING, .capture .AUDIO_STATE_STOPPED] ∧
    ((samplePump .Idle (some 1) none).StartPump (some 7) .AUDIO_RESULT_OK []
        [.capture .AUDIO_STATE_STARTING, .capture .AUDIO_STATE_STOPPED]).result
      = .error .SPXERR_TIMEOUT ∧
    ((samplePump .Idle (some 1) none).StartPump (some 7) .AUDIO_RESULT_OK []
        [.capture .AUDIO_STATE_STARTING, .capture .AUDIO_STATE_STOPPED]).pump.m_state
      = State.Idle ∧
    setFormatCalls 7 ((samplePump .Idle (some 1) none).StartPump (some 7)
        .AUDIO_RESULT_OK []
        [.capture .AUDIO_STATE_STARTING, .capture .AUDIO_STATE_STOPPED]).calls
      = [some (samplePump .Idle (some 1) none).m_format, none] ∧
    ((samplePump .Idle (some 1) none).StartPump (some 7) .AUDIO_RESULT_OK []
        [.capture .AUDIO_STATE_STARTING, .capture .AUDIO_STATE_STARTING]).result
      = .ok () ∧
    setFormatCalls 7 ((samplePump .Idle (some 1) none).StartPump (some 7)
        .AUDIO_RESULT_OK []
        [.capture .AUDIO_STATE_STARTING, .capture .AUDIO_STATE_STARTING]).calls
      = [some (samplePump .Idle (some 1) none).m_format,
         some (samplePump .Idle (some 1) none).m_format] ∧
    ¬ (∀ (p : CSpxMicrophonePumpBase) (sink h : Nat) (early : List AUDIO_STATE)
        (sched : List WaitStep),
        p.m_audioHandle = some h →
        p.m_state ≠ State.Processing →
        AUDIO_STATE.AUDIO_STATE_STARTING ∈ early ++ captured sched →
        (p.StartPump (some sink) .AUDIO_RESULT_OK early sched).result = .ok () ∧
        (p.StartPump (some sink) .AUDIO_RESULT_OK early sched).pump.m_state
          = State.Processing ∧
        setFormatCalls sink (p.StartPump (some sink) .AUDIO_RESULT_OK early sched).calls
          = [some p.m_format]) := by
  refine ⟨rfl, by decide, by decide, rfl, rfl, by decide, rfl, by decide, ?_⟩
  intro hall
  have hok := (hall (samplePump .Idle (some 1) none) 7 1 []
    [.capture .AUDIO_STATE_STARTING, .capture .AUDIO_STATE_STOPPED] rfl (by decide)
    (by decide)).1
  have herr : errorOf ((samplePump .Idle (some 1) none).StartPump (some 7)
      .AUDIO_RESULT_OK []
      [.capture .AUDIO_STATE_STARTING, .capture .AUDIO_STATE_STOPPED]).result
      = none := by
    rw [hok]; rfl
  exact absurd herr (by decide)

/-- C1, amended. Central ordering contract of `StartPump`. First part: for a pump with an
opened device and a state other than Processing and a non-null sink, when the
device accepts the start request and the capture thread delivers one 'starting'
event (and no 'stopped' event) before the start wait expires, be it before the
wait begins or during it and whatever the wake-ups, Start returns without error,
the state at return is Processing, and the sink passed to Start has received
exactly one `SetFormat` call, with the format descriptor of the pump. Second
part: whenever Start returns without error, for any pump and arguments, the sink
passed is non-null, the state at return is Processing, and an
`UpdateState('starting')` ran after the precondition check: its `SetFormat` call
on that sink is among the calls made before the return, and a 'starting' event
is among those delivered. -/
theorem start_ordering_contract :
    (∀ (p : CSpxMicrophonePumpBase) (sink h : Nat) (early : List AUDIO_STATE)
        (sched : List WaitStep),
        p.m_audioHandle = some h →
        p.m_state ≠ State.Processing →
        (early ++ captured sched).count .AUDIO_STATE_STARTING = 1 →
        AUDIO_STATE.AUDIO_STATE_STOPPED ∉ early ++ captured sched →
        (p.StartPump (some sink) .AUDIO_RESULT_OK early sched).result = .ok () ∧
        (p.StartPump (some sink) .AUDIO_RESULT_OK early sched).pump.m_state
          = State.Processing ∧
        setFormatCalls sink (p.StartPump (some sink) .AUDIO_RESULT_OK early sched).calls
          = [some p.m_format]) ∧
    (∀ (p : CSpxMicrophonePumpBase) (processor : Option Nat) (started : AUDIO_RESULT)
        (early : List AUDIO_STATE) (sched : List WaitStep),
        (p.StartPump processor started early sched).result = .ok () →
        ∃ sink, processor = some sink ∧
          (p.StartPump processor started early sched).pump.m_state = State.Processing ∧
          Call.SetFormat sink (some p.m_format)
            ∈ (p.StartPump processor started early sched).calls ∧
          AUDIO_STATE.AUDIO_STATE_STARTING ∈ early ++ captured sched) := by
  constructor
  · intro p sink h early sched hh hp hcount hstop
    obtain ⟨st, f, hd, sk⟩ := p
    simp only at hh hp
    subst hh
    simp only [List.mem_append, not_or] at hstop
    rw [List.count_append] at hcount
    by_cases he : AUDIO_STATE.AUDIO_STATE_STARTING ∈ early
    · -- the event arrives before the wait begins
      have hpos := List.count_pos_iff.mpr he
      have he1 : early.count .AUDIO_STATE_STARTING = 1 := by omega
      have hc := captureThread_one_start early ⟨st, f, some h, some sink⟩ sink rfl
        he1 hstop.1
      simp only at hc
      simp only [CSpxMicrophonePumpBase.StartPump, if_neg hp, wait_for, hc.1]
      simp [startPred, setFormatCalls_append, hc.2, setFormatCalls]
    · -- the event arrives during the wait
      have he0 : early.count .AUDIO_STATE_STARTING = 0 := List.count_eq_zero.mpr he
      have hs1 : (captured sched).count .AUDIO_STATE_STARTING = 1 := by omega
      have hc := captureThread_quiet early ⟨st, f, some h, some sink⟩ he hstop.1
      have hw := waitLoop_start_one sched ⟨st, f, some h, some sink⟩ sink rfl hp
        hs1 hstop.2
      simp only at hw
      have hf : startPred st = false := by
        revert hp; cases st <;> simp [startPred]
      simp only [CSpxMicrophonePumpBase.StartPump, if_neg hp, wait_for, hc, hf]
      simp [hw.1, hw.2.1, setFormatCalls_append, hw.2.2, setFormatCalls]
  · intro p processor started early sched hok
    obtain ⟨st, f, hd, sk⟩ := p
    cases processor with
    | none => simp [CSpxMicrophonePumpBase.StartPump] at hok
    | some sink =>
      refine ⟨sink, rfl, ?_⟩
      cases hd with
      | none => simp [CSpxMicrophonePumpBase.StartPump] at hok
      | some h =>
        by_cases hp : st = State.Processing
        · simp [CSpxMicrophonePumpBase.StartPump, hp] at hok
        · by_cases hst : started = .AUDIO_RESULT_OK
          · subst hst
            simp only [CSpxMicrophonePumpBase.StartPump, if_neg hp, ne_eq,
              not_true_eq_false, if_false] at hok ⊢
            have hw : (wait_for startPred
                (captureThread ⟨st, f, some h, some sink⟩ early).1 sched).1 = true := by
              by_contra hne
              simp only [Bool.not_eq_true] at hne
              simp [hne] at hok
            have hend := (wait_for_pred startPred sched _).symm.trans hw
            rw [startPred_iff] at hend
            have hk := captureThread_keeps early ⟨st, f, some h, some sink⟩
            simp only at hk
            refine ⟨hend, ?_, ?_⟩
            · by_cases hmid : (captureThread ⟨st, f, some h, some sink⟩ early).1.m_state
                  = State.Processing
              · have := captureThread_start_call early ⟨st, f, some h, some sink⟩
                  sink rfl hp hmid
                simp only [List.mem_append, List.mem_cons]
                exact Or.inl (Or.inr this)
              · have hpf : startPred
                    (captureThread ⟨st, f, some h, some sink⟩ early).1.m_state = false := by
                  rw [← Bool.not_eq_true, startPred_iff]; exact hmid
                simp only [wait_for, hpf] at hend ⊢
                have := waitLoop_start_call startPred sched _ sink hk.1 hmid hend
                rw [hk.2.1] at this
                simp only [List.mem_append]
                exact Or.inr this
            · by_contra hno
              simp only [List.mem_append, not_or] at hno
              have h1 := captureThread_not_processing early
                ⟨st, f, some h, some sink⟩ hno.1 hp
              have hpf : startPred
                  (captureThread ⟨st, f, some h, some sink⟩ early).1.m_state = false := by
                rw [← Bool.not_eq_true, startPred_iff]; exact h1
              simp only [wait_for, hpf] at hend
              exact waitLoop_not_processing startPred sched _ hno.2 h1 hend
          · simp [CSpxMicrophonePumpBase.StartPump, hp, hst] at hok

/-- Witness of C1, amended: an idle pump with device 1, started with sink 7, the 'starting'
event arriving during the wait after a spurious wake-up. -/
theorem start_ordering_contract_witness :
    (samplePump .Idle (some 1) none).m_audioHandle = some 1 ∧
    (samplePump .Idle (some 1) none).m_state ≠ State.Processing ∧
    (([] : List AUDIO_STATE) ++ captured [.wake, .capture .AUDIO_STATE_STARTING]).count
      AUDIO_STATE.AUDIO_STATE_STARTING = 1 ∧
    AUDIO_STATE.AUDIO_STATE_STOPPED ∉
      ([] : List AUDIO_STATE) ++ captured [.wake, .capture .AUDIO_STATE_STARTING] ∧
    ((samplePump .Idle (some 1) none).StartPump (some 7) .AUDIO_RESULT_OK []
        [.wake, .capture .AUDIO_STATE_STARTING]).result = .ok () ∧
    ((samplePump .Idle (some 1) none).StartPump (some 7) .AUDIO_RESULT_OK []
        [.wake, .capture .AUDIO_STATE_STARTING]).pump.m_state = State.Processing ∧
    setFormatCalls 7 ((samplePump .Idle (some 1) none).StartPump (some 7)
        .AUDIO_RESULT_OK [] [.wake, .capture .AUDIO_STATE_STARTING]).calls
      = [some (samplePump .Idle (some 1) none).m_format] :=
  ⟨rfl, by decide, by decide, by decide,
    start_ordering_contract.1 (samplePump .Idle (some 1) none) 7 1 []
      [.wake, .capture .AUDIO_STATE_STARTING] rfl (by decide) (by decide) (by decide)⟩

/-! ## C2: Stop releases the sink on every exit path -/

/-- C2. `StopPump` releases the sink on every exit path: for every pump (every
state, device handle and registered sink), every answer of the device to the stop
request and every course of the stop wait, the sink reference is empty after
Stop; and Stop ends in one of three ways only: it returns, it fails with
InvalidArgument, or it fails with DeviceError. -/
theorem stop_releases_sink (p : CSpxMicrophonePumpBase) (stopped : AUDIO_RESULT)
    (early : List AUDIO_STATE) (sched : List WaitStep) :
    (p.StopPump stopped early sched).pump.m_sink = none ∧
    ((p.StopPump stopped early sched).result = .ok () ∨
     (p.StopPump stopped early sched).result = .error .SPXERR_INVALID_ARG ∨
     (p.StopPump stopped early sched).result = .error .SPXERR_MIC_ERROR) := by
  obtain ⟨st, f, hd, sk⟩ := p
  refine ⟨rfl, ?_⟩
  cases hd <;> cases sk <;> cases st <;> by_cases hs : stopped = .AUDIO_RESULT_OK <;>
    simp [CSpxMicrophonePumpBase.StopPump, ReleaseSink, hs]

/-! ## C3: the transition table of UpdateState -/

/-- C3. `UpdateState` is this transition table. With a sink registered: on
'starting' it calls `SetFormat` of the sink once with the format of the pump,
sets the state to Processing (and notifies the condition variable); on 'stopped'
it calls `SetFormat` once with null and sets the state to Idle (and notifies);
on 'running' it makes no call and changes nothing; on any other value it fails
with InvalidState, makes no call and changes nothing. With no sink registered it
fails with InvalidArgument for every event and changes nothing. It never changes
the registered sink. -/
theorem UpdateState_table (p : CSpxMicrophonePumpBase) :
    (∀ sink, p.m_sink = some sink →
      p.UpdateState .AUDIO_STATE_STARTING =
        ⟨.ok (), { p with m_state := State.Processing },
          [.SetFormat sink (some p.m_format), .notify_one]⟩ ∧
      p.UpdateState .AUDIO_STATE_STOPPED =
        ⟨.ok (), { p with m_state := State.Idle }, [.SetFormat sink none, .notify_one]⟩ ∧
      p.UpdateState .AUDIO_STATE_RUNNING = ⟨.ok (), p, []⟩ ∧
      ∀ code, p.UpdateState (.other code) = ⟨.error .SPXERR_INVALID_STATE, p, []⟩) ∧
    (p.m_sink = none →
      ∀ ev, p.UpdateState ev = ⟨.error .SPXERR_INVALID_ARG, p, []⟩) ∧
    (∀ ev, (p.UpdateState ev).pump.m_sink = p.m_sink) := by
  obtain ⟨st, f, hd, sk⟩ := p
  refine ⟨?_, ?_, ?_⟩
  · intro sink hs
    simp only at hs
    subst hs
    exact ⟨rfl, rfl, rfl, fun _ => rfl⟩
  · intro hs ev
    simp only at hs
    subst hs
    rfl
  · intro ev
    exact (UpdateState_keeps _ ev).1

/-- Witness of C3: a pump in state Idle with device 1 and sink 7, and a pump with
no sink. -/
theorem UpdateState_table_witness :
    (samplePump .Idle (some 1) (some 7)).m_sink = some 7 ∧
    (samplePump .Idle (some 1) (some 7)).UpdateState .AUDIO_STATE_STARTING =
      ⟨.ok (), samplePump .Processing (some 1) (some 7),
        [.SetFormat 7 (some (samplePump .Idle (some 1) (some 7)).m_format),
          .notify_one]⟩ ∧
    (samplePump .Idle (some 1) none).m_sink = none ∧
    (samplePump .Idle (some 1) none).UpdateState .AUDIO_STATE_STARTING =
      ⟨.error .SPXERR_INVALID_ARG, samplePump .Idle (some 1) none, []⟩ :=
  ⟨rfl,
   ((UpdateState_table (samplePump .Idle (some 1) (some 7))).1 7 rfl).1,
   rfl,
   (UpdateState_table (samplePump .Idle (some 1) none)).2.1 rfl .AUDIO_STATE_STARTING⟩

/-! ## C4: the preconditions of Start -/

/-- C4. `StartPump` fails fast on a precondition violation: a null sink fails
with InvalidArgument, an unopened device fails with InvalidArgument, and a call
in state Processing with a non-null sink and an opened device fails with
AlreadyPumping. In each case the outcome is the error alone: no call is made
(the device is never asked to start) and the pump, its state and its registered
sink included, is as it was. -/
theorem StartPump_preconditions (p : CSpxMicrophonePumpBase) (processor : Option Nat)
    (started : AUDIO_RESULT) (early : List AUDIO_STATE) (sched : List WaitStep) :
    (processor = none →
      p.StartPump processor started early sched = ⟨.error .SPXERR_INVALID_ARG, p, []⟩) ∧
    (p.m_audioHandle = none →
      p.StartPump processor started early sched = ⟨.error .SPXERR_INVALID_ARG, p, []⟩) ∧
    (processor ≠ none → p.m_audioHandle ≠ none → p.m_state = State.Processing →
      p.StartPump processor started early sched
        = ⟨.error .SPXERR_AUDIO_IS_PUMPING, p, []⟩) := by
  obtain ⟨st, f, hd, sk⟩ := p
  refine ⟨?_, ?_, ?_⟩
  · intro h
    subst h
    rfl
  · intro h
    simp only at h
    subst h
    cases processor <;> rfl
  · intro h1 h2 h3
    simp only at h2 h3
    subst h3
    cases processor with
    | none => exact absurd rfl h1
    | some sink =>
      cases hd with
      | none => exact absurd rfl h2
      | some h => rfl

/-- Witness of C4: a null sink; a constructed pump, whose device is not opened;
and a pump in state Processing with device 1 and sink 7, started with sink 8. -/
theorem StartPump_preconditions_witness :
    (samplePump .Idle (some 1) (some 7)).StartPump none .AUDIO_RESULT_OK
        [.AUDIO_STATE_STARTING] []
      = ⟨.error .SPXERR_INVALID_ARG, samplePump .Idle (some 1) (some 7), []⟩ ∧
    (CSpxMicrophonePumpBase.ctor pcm).StartPump (some 8) .AUDIO_RESULT_OK
        [.AUDIO_STATE_STARTING] []
      = ⟨.error .SPXERR_INVALID_ARG, CSpxMicrophonePumpBase.ctor pcm, []⟩ ∧
    (samplePump .Processing (some 1) (some 7)).StartPump (some 8) .AUDIO_RESULT_OK
        [.AUDIO_STATE_STARTING] []
      = ⟨.error .SPXERR_AUDIO_IS_PUMPING, samplePump .Processing (some 1) (some 7), []⟩ :=
  ⟨(StartPump_preconditions (samplePump .Idle (some 1) (some 7)) none .AUDIO_RESULT_OK
      [.AUDIO_STATE_STARTING] []).1 rfl,
   (StartPump_preconditions (CSpxMicrophonePumpBase.ctor pcm) (some 8) .AUDIO_RESULT_OK
      [.AUDIO_STATE_STARTING] []).2.1 rfl,
   (StartPump_preconditions (samplePump .Processing (some 1) (some 7)) (some 8)
      .AUDIO_RESULT_OK [.AUDIO_STATE_STARTING] []).2.2 (by simp) (by simp [samplePump]) rfl⟩

/-! ## C5: Stop never surfaces a wait timeout -/

/-- C5. `StopPump` never surfaces a wait timeout. Stop fails if and only if the
device handle is null or no sink is registered, and then with InvalidArgument, or
the state is Processing (with a device and a sink) and the device rejects the
stop request, and then with DeviceError. In state Processing with a sink
registered and the device accepting the stop request, Stop returns without error
whatever happens during the wait: when the 'stopped' event arrives within the
wait and the state is Idle at return, and when the wait expires with no event and
the state still Processing. -/
theorem StopPump_failures (p : CSpxMicrophonePumpBase) (stopped : AUDIO_RESULT)
    (early : List AUDIO_STATE) (sched : List WaitStep) :
    ((p.StopPump stopped early sched).result ≠ .ok () ↔
      (p.m_audioHandle = none ∨ p.m_sink = none ∨
        (p.m_state = State.Processing ∧ stopped ≠ .AUDIO_RESULT_OK))) ∧
    (p.m_audioHandle = none ∨ p.m_sink = none →
      (p.StopPump stopped early sched).result = .error .SPXERR_INVALID_ARG) ∧
    (p.m_audioHandle ≠ none → p.m_sink ≠ none → p.m_state = State.Processing →
      stopped ≠ .AUDIO_RESULT_OK →
      (p.StopPump stopped early sched).result = .error .SPXERR_MIC_ERROR) ∧
    (p.m_audioHandle ≠ none → p.m_sink ≠ none → p.m_state = State.Processing →
      (p.StopPump .AUDIO_RESULT_OK early sched).result = .ok () ∧
      ((p.StopPump .AUDIO_RESULT_OK [] [.capture .AUDIO_STATE_STOPPED]).result = .ok () ∧
       (p.StopPump .AUDIO_RESULT_OK [] [.capture .AUDIO_STATE_STOPPED]).pump.m_state
         = State.Idle) ∧
      ((p.StopPump .AUDIO_RESULT_OK [] []).result = .ok () ∧
       (p.StopPump .AUDIO_RESULT_OK [] []).pump.m_state = State.Processing)) := by
  obtain ⟨st, f, hd, sk⟩ := p
  refine ⟨?_, ?_, ?_, ?_⟩
  · cases hd <;> cases sk <;> cases st <;> by_cases hs : stopped = .AUDIO_RESULT_OK <;>
      simp [CSpxMicrophonePumpBase.StopPump, ReleaseSink, hs]
  · cases hd <;> cases sk <;> simp [CSpxMicrophonePumpBase.StopPump, ReleaseSink]
  · intro h1 h2 h3 h4
    cases hd <;> cases sk <;> simp_all [CSpxMicrophonePumpBase.StopPump, ReleaseSink]
  · intro h1 h2 h3
    simp only at h3
    subst h3
    cases hd with
    | none => exact absurd rfl h1
    | some h =>
      cases sk with
      | none => exact absurd rfl h2
      | some sink => exact ⟨rfl, ⟨rfl, rfl⟩, ⟨rfl, rfl⟩⟩

/-- Witness of C5: a pump in state Processing with device 1 and sink 7; the
device rejects the stop request, and the device accepts it and the wait expires
after two spurious wake-ups. -/
theorem StopPump_failures_witness :
    ((samplePump .Processing (some 1) (some 7)).StopPump (.failure 5) [] []).result
      = .error .SPXERR_MIC_ERROR ∧
    ((samplePump .Processing (some 1) (some 7)).StopPump .AUDIO_RESULT_OK []
      [.wake, .wake]).result = .ok () :=
  ⟨(StopPump_failures (samplePump .Processing (some 1) (some 7)) (.failure 5) []
      []).2.2.1 (by simp [samplePump]) (by simp [samplePump]) rfl (by simp),
   ((StopPump_failures (samplePump .Processing (some 1) (some 7)) .AUDIO_RESULT_OK []
      [.wake, .wake]).2.2.2 (by simp [samplePump]) (by simp [samplePump]) rfl).1⟩

/-! ## C6: the fast path of Stop -/

/-- C6, the claim as stated is false: the constructed pump is in state NoInput,
and Stop on it does not return but fails with InvalidArgument, as does Stop on an
idle pump with an opened device and no sink. -/
theorem StopPump_fast_path_counterexample :
    (CSpxMicrophonePumpBase.ctor pcm).m_state = State.NoInput ∧
    ((CSpxMicrophonePumpBase.ctor pcm).StopPump .AUDIO_RESULT_OK [] []).result
      = .error .SPXERR_INVALID_ARG ∧
    (samplePump .Idle (some 1) none).m_state = State.Idle ∧
    ((samplePump .Idle (some 1) none).StopPump .AUDIO_RESULT_OK [] []).result
      = .error .SPXERR_INVALID_ARG ∧
    ¬ (∀ (p : CSpxMicrophonePumpBase) (stopped : AUDIO_RESULT)
        (early : List AUDIO_STATE) (sched : List WaitStep),
        p.m_state = State.NoInput ∨ p.m_state = State.Idle →
        (p.StopPump stopped early sched).result = .ok () ∧
        (p.StopPump stopped early sched).calls = [] ∧
        (p.StopPump stopped early sched).pump.m_state = p.m_state ∧
        (p.StopPump stopped early sched).pump.m_sink = none) := by
  refine ⟨rfl, rfl, rfl, rfl, ?_⟩
  intro h
  have := (h (CSpxMicrophonePumpBase.ctor pcm) .AUDIO_RESULT_OK [] [] (Or.inl rfl)).1
  simp [CSpxMicrophonePumpBase.StopPump, ReleaseSink, CSpxMicrophonePumpBase.ctor] at this

/-- C6, amended. For every pump whose state is NoInput or Idle, Stop makes no
call (the device is not asked to stop and nothing is waited for), leaves the
state unchanged and releases the sink; it returns without error when the device
is opened and a sink is registered, and fails with InvalidArgument otherwise. -/
theorem StopPump_fast_path (p : CSpxMicrophonePumpBase) (stopped : AUDIO_RESULT)
    (early : List AUDIO_STATE) (sched : List WaitStep)
    (hst : p.m_state = State.NoInput ∨ p.m_state = State.Idle) :
    (p.StopPump stopped early sched).calls = [] ∧
    (p.StopPump stopped early sched).pump = { p with m_sink := none } ∧
    (p.StopPump stopped early sched).pump.m_state = p.m_state ∧
    (p.StopPump stopped early sched).pump.m_sink = none ∧
    (p.m_audioHandle ≠ none ∧ p.m_sink ≠ none →
      (p.StopPump stopped early sched).result = .ok ()) ∧
    (p.m_audioHandle = none ∨ p.m_sink = none →
      (p.StopPump stopped early sched).result = .error .SPXERR_INVALID_ARG) := by
  obtain ⟨st, f, hd, sk⟩ := p
  simp only at hst
  cases hd <;> cases sk <;> rcases hst with h | h <;> subst h <;>
    simp [CSpxMicrophonePumpBase.StopPump, ReleaseSink]

/-- Witness of C6, amended: an idle pump with device 1 and sink 7, the capture
thread delivering a 'starting' event that Stop does not wait for. -/
theorem StopPump_fast_path_witness :
    ((samplePump .Idle (some 1) (some 7)).m_state = State.NoInput ∨
      (samplePump .Idle (some 1) (some 7)).m_state = State.Idle) ∧
    ((samplePump .Idle (some 1) (some 7)).StopPump .AUDIO_RESULT_OK
      [.AUDIO_STATE_STARTING] [.wake]).calls = [] ∧
    ((samplePump .Idle (some 1) (some 7)).StopPump .AUDIO_RESULT_OK
      [.AUDIO_STATE_STARTING] [.wake]).pump = samplePump .Idle (some 1) none :=
  ⟨Or.inr rfl,
   (StopPump_fast_path (samplePump .Idle (some 1) (some 7)) .AUDIO_RESULT_OK
      [.AUDIO_STATE_STARTING] [.wake] (Or.inr rfl)).1,
   (StopPump_fast_path (samplePump .Idle (some 1) (some 7)) .AUDIO_RESULT_OK
      [.AUDIO_STATE_STARTING] [.wake] (Or.inr rfl)).2.1⟩

/-! ## C7: a second Stop -/

/-- C7, the claim as stated is false: on an idle pump with device 1 and sink 7 the
first Stop returns without error and leaves the state Idle, and the second Stop,
called at once, fails with InvalidArgument. -/
theorem StopPump_twice_counterexample :
    (samplePump .Idle (some 1) (some 7)).m_audioHandle ≠ none ∧
    ((samplePump .Idle (some 1) (some 7)).StopPump .AUDIO_RESULT_OK [] []).result
      = .ok () ∧
    ((samplePump .Idle (some 1) (some 7)).StopPump .AUDIO_RESULT_OK [] []).pump.m_state
      = State.Idle ∧
    ((((samplePump .Idle (some 1) (some 7)).StopPump .AUDIO_RESULT_OK [] []).pump).StopPump
      .AUDIO_RESULT_OK [] []).result = .error .SPXERR_INVALID_ARG := by
  refine ⟨by simp [samplePump], rfl, rfl, rfl⟩

/-- C7, amended. For every pump with an opened device on which a Stop call has
just returned leaving the state NoInput or Idle, a second Stop call that follows
at once fails with InvalidArgument, because the first call released the sink; it
makes no call (the device is not touched) and leaves the pump, state and sink
reference, exactly as the first call left it. -/
theorem StopPump_twice (p : CSpxMicrophonePumpBase)
    (stopped1 stopped2 : AUDIO_RESULT) (early1 early2 : List AUDIO_STATE)
    (sched1 sched2 : List WaitStep)
    (_hh : p.m_audioHandle ≠ none)
    (_hret : (p.StopPump stopped1 early1 sched1).result = .ok ())
    (_hst : (p.StopPump stopped1 early1 sched1).pump.m_state = State.NoInput ∨
      (p.StopPump stopped1 early1 sched1).pump.m_state = State.Idle) :
    ((p.StopPump stopped1 early1 sched1).pump.StopPump stopped2 early2 sched2).result
      = .error .SPXERR_INVALID_ARG ∧
    ((p.StopPump stopped1 early1 sched1).pump.StopPump stopped2 early2 sched2).calls
      = [] ∧
    ((p.StopPump stopped1 early1 sched1).pump.StopPump stopped2 early2 sched2).pump
      = (p.StopPump stopped1 early1 sched1).pump := by
  have hs := (stop_releases_sink_aux p stopped1 early1 sched1)
  generalize (p.StopPump stopped1 early1 sched1).pump = q at hs
  obtain ⟨st, f, hd, sk⟩ := q
  simp only at hs
  subst hs
  cases hd <;> simp [CSpxMicrophonePumpBase.StopPump, ReleaseSink]

/-- Witness of C7, amended: a pump in state Processing with device 1 and sink 7,
whose first Stop ends with the 'stopped' event arriving during the wait. -/
theorem StopPump_twice_witness :
    (samplePump .Processing (some 1) (some 7)).m_audioHandle ≠ none ∧
    ((samplePump .Processing (some 1) (some 7)).StopPump .AUDIO_RESULT_OK []
      [.capture .AUDIO_STATE_STOPPED]).result = .ok () ∧
    ((((samplePump .Processing (some 1) (some 7)).StopPump .AUDIO_RESULT_OK []
      [.capture .AUDIO_STATE_STOPPED]).pump).StopPump .AUDIO_RESULT_OK [] []).result
      = .error .SPXERR_INVALID_ARG :=
  ⟨by simp [samplePump], rfl,
   (StopPump_twice (samplePump .Processing (some 1) (some 7)) .AUDIO_RESULT_OK
      .AUDIO_RESULT_OK [] [] [.capture .AUDIO_STATE_STOPPED] []
      (by simp [samplePump]) rfl (Or.inr rfl)).1⟩

/-! ## C8: the timeout of Start -/

/-- C8. Start timeout. For a pump with an opened device and state NoInput or Idle
and a non-null sink, when the device accepts the start request and the capture
thread delivers no 'starting' event before the start wait expires, so that no
event moves the state away from NoInput and Idle, Start fails with Timeout, and
the state is NoInput or Idle at that point. Conversely, for any pump and
arguments, Start fails with Timeout only when the state is NoInput or Idle at
the end of the wait. -/
theorem StartPump_timeout :
    (∀ (p : CSpxMicrophonePumpBase) (sink h : Nat) (early : List AUDIO_STATE)
        (sched : List WaitStep),
        p.m_audioHandle = some h →
        p.m_state = State.NoInput ∨ p.m_state = State.Idle →
        AUDIO_STATE.AUDIO_STATE_STARTING ∉ early ++ captured sched →
        (p.StartPump (some sink) .AUDIO_RESULT_OK early sched).result
          = .error .SPXERR_TIMEOUT ∧
        ((p.StartPump (some sink) .AUDIO_RESULT_OK early sched).pump.m_state
            = State.NoInput ∨
          (p.StartPump (some sink) .AUDIO_RESULT_OK early sched).pump.m_state
            = State.Idle)) ∧
    (∀ (p : CSpxMicrophonePumpBase) (processor : Option Nat) (started : AUDIO_RESULT)
        (early : List AUDIO_STATE) (sched : List WaitStep),
        (p.StartPump processor started early sched).result = .error .SPXERR_TIMEOUT →
        (p.StartPump processor started early sched).pump.m_state = State.NoInput ∨
        (p.StartPump processor started early sched).pump.m_state = State.Idle) := by
  have hcases : ∀ st : State, st ≠ State.Processing →
      st = State.NoInput ∨ st = State.Idle := by
    intro st; cases st <;> simp
  constructor
  · intro p sink h early sched hh hst hno
    obtain ⟨st, f, hd, sk⟩ := p
    simp only at hh hst
    subst hh
    have hp : st ≠ State.Processing := by
      rcases hst with h1 | h1 <;> subst h1 <;> simp
    simp only [List.mem_append, not_or] at hno
    have h1 := captureThread_not_processing early ⟨st, f, some h, some sink⟩ hno.1 hp
    have hpf : startPred (captureThread ⟨st, f, some h, some sink⟩ early).1.m_state
        = false := by
      rw [← Bool.not_eq_true, startPred_iff]; exact h1
    have h2 := waitLoop_not_processing startPred sched _ hno.2 h1
    have hw := waitLoop_pred startPred sched
      (captureThread ⟨st, f, some h, some sink⟩ early).1
    have hwf : (waitLoop startPred
        (captureThread ⟨st, f, some h, some sink⟩ early).1 sched).1 = false := by
      rw [hw, ← Bool.not_eq_true, startPred_iff]; exact h2
    simp only [CSpxMicrophonePumpBase.StartPump, if_neg hp, wait_for, hpf]
    simp only [ne_eq, not_true_eq_false, if_false, Bool.false_eq_true, hwf, if_true,
      true_and]
    exact hcases _ h2
  · intro p processor started early sched herr
    obtain ⟨st, f, hd, sk⟩ := p
    cases processor with
    | none => simp [CSpxMicrophonePumpBase.StartPump] at herr
    | some sink =>
      cases hd with
      | none => simp [CSpxMicrophonePumpBase.StartPump] at herr
      | some h =>
        by_cases hp : st = State.Processing
        · simp [CSpxMicrophonePumpBase.StartPump, hp] at herr
        · by_cases hs : started = .AUDIO_RESULT_OK
          · subst hs
            simp only [CSpxMicrophonePumpBase.StartPump, if_neg hp, ne_eq,
              not_true_eq_false, if_false] at herr ⊢
            have hw : (wait_for startPred
                (captureThread ⟨st, f, some h, some sink⟩ early).1 sched).1 = false := by
              by_contra hne
              simp only [Bool.not_eq_false] at hne
              simp [hne] at herr
            have hend := (wait_for_pred startPred sched _).symm.trans hw
            apply hcases
            intro hproc
            rw [← Bool.not_eq_true, startPred_iff] at hend
            exact hend hproc
          · simp [CSpxMicrophonePumpBase.StartPump, hp, hs] at herr

/-- Witness of C8: a constructed pump after `Init` opened device 1, started with
sink 7; the capture thread delivers only a 'running' event. -/
theorem StartPump_timeout_witness :
    (samplePump .NoInput (some 1) none).m_audioHandle = some 1 ∧
    ((samplePump .NoInput (some 1) none).m_state = State.NoInput ∨
      (samplePump .NoInput (some 1) none).m_state = State.Idle) ∧
    AUDIO_STATE.AUDIO_STATE_STARTING ∉
      ([] : List AUDIO_STATE) ++ captured [.wake, .capture .AUDIO_STATE_RUNNING] ∧
    ((samplePump .NoInput (some 1) none).StartPump (some 7) .AUDIO_RESULT_OK []
      [.wake, .capture .AUDIO_STATE_RUNNING]).result = .error .SPXERR_TIMEOUT :=
  ⟨rfl, Or.inl rfl, by decide,
   (StartPump_timeout.1 (samplePump .NoInput (some 1) none) 7 1 []
      [.wake, .capture .AUDIO_STATE_RUNNING] rfl (Or.inl rfl) (by decide)).1⟩

/-! ## C9: the state machine -/

/-- C9, the claim as stated is false. The pump that is constructed and
initialised with device 1 is in state NoInput; a Start with sink 7 on it, which
is not `UpdateState`, returns without error when the capture thread delivers
'starting', and the state afterwards is Processing. Likewise a Stop on a pump in
state Processing during which 'stopped' arrives leaves the state Idle. -/
theorem state_machine_invariant_counterexample :
    runAll (CSpxMicrophonePumpBase.ctor pcm, []) [.Init (some 1) .AUDIO_RESULT_OK]
      = (samplePump .NoInput (some 1) none, []) ∧
    ((samplePump .NoInput (some 1) none).StartPump (some 7) .AUDIO_RESULT_OK
      [.AUDIO_STATE_STARTING] []).result = .ok () ∧
    ((Op.StartPump (some 7) .AUDIO_RESULT_OK [.AUDIO_STATE_STARTING] []).run
      (samplePump .NoInput (some 1) none, [])).1.m_state = State.Processing ∧
    ((Op.StopPump .AUDIO_RESULT_OK [] [.capture .AUDIO_STATE_STOPPED]).run
      (samplePump .Processing (some 1) (some 7), [])).1.m_state = State.Idle ∧
    ¬ (∀ (op : Op) (w : CSpxMicrophonePumpBase × Heap),
        (∀ state, op ≠ .UpdateState state) →
        (op.run w).1.m_state = w.1.m_state) := by
  refine ⟨rfl, rfl, rfl, rfl, ?_⟩
  intro hall
  have h := hall (Op.StartPump (some 7) .AUDIO_RESULT_OK [.AUDIO_STATE_STARTING] [])
    (samplePump .NoInput (some 1) none, []) (fun _ hne => Op.noConfusion hne)
  exact absurd h (by decide)

/-- C9, amended. State-machine invariant. A newly constructed pump is in state NoInput.
For every pump and every operation (Init, Term, GetFormat, Start, Stop, GetState,
Process and UpdateState, returned or thrown) the state afterwards is the state
that the `UpdateState` calls of the capture thread during the operation produce
from the state before: the operations other than `UpdateState` do not write the
state themselves, so the state after one of them during which the capture thread
delivers no event equals the state before it. `GetState` returns the current
state, one of NoInput, Idle and Processing, and changes nothing. No operation
sets the state to NoInput: a state that is NoInput after an operation was NoInput
before it, and once the state has left NoInput no sequence of operations brings
it back. -/
theorem state_machine_invariant :
    (∀ k, (CSpxMicrophonePumpBase.ctor k).m_state = State.NoInput) ∧
    (∀ (op : Op) (w : CSpxMicrophonePumpBase × Heap),
      ∃ evs, evs <+: op.events ∧
        (op.run w).1.m_state =
          (captureThread { w.1 with m_sink := op.sinkDuring w.1 } evs).1.m_state) ∧
    (∀ (op : Op) (w : CSpxMicrophonePumpBase × Heap),
      op.events = [] → (op.run w).1.m_state = w.1.m_state) ∧
    (∀ p : CSpxMicrophonePumpBase,
      p.GetState = ⟨.ok p.m_state, p, []⟩ ∧
      (p.m_state = State.NoInput ∨ p.m_state = State.Idle ∨
        p.m_state = State.Processing)) ∧
    (∀ (op : Op) (w : CSpxMicrophonePumpBase × Heap),
      (op.run w).1.m_state = State.NoInput → w.1.m_state = State.NoInput) ∧
    (∀ (ops : List Op) (w : CSpxMicrophonePumpBase × Heap),
      w.1.m_state ≠ State.NoInput → (runAll w ops).1.m_state ≠ State.NoInput) := by
  have hrun : ∀ (op : Op) (w : CSpxMicrophonePumpBase × Heap),
      ∃ evs, evs <+: op.events ∧
        (op.run w).1.m_state =
          (captureThread { w.1 with m_sink := op.sinkDuring w.1 } evs).1.m_state := by
    intro op w
    obtain ⟨⟨st, f, hd, sk⟩, heap⟩ := w
    cases op with
    | Init created registered =>
      refine ⟨[], List.nil_prefix, ?_⟩
      cases created <;> by_cases hr : registered = .AUDIO_RESULT_OK <;>
        simp [Op.run, CSpxMicrophonePumpBase.Init, captureThread, hr,
          CSpxMicrophonePumpBase.SetOptionsAfterCreateAudioHandle]
    | Term => exact ⟨[], List.nil_prefix, rfl⟩
    | GetFormat format size =>
      refine ⟨[], List.nil_prefix, ?_⟩
      cases format <;> rfl
    | GetState => exact ⟨[], List.nil_prefix, rfl⟩
    | UpdateState state => exact ⟨[state], List.prefix_refl _, rfl⟩
    | Process pBuffer size =>
      refine ⟨[], List.nil_prefix, ?_⟩
      cases sk <;> cases pBuffer <;> rfl
    | StartPump processor started early sched =>
      cases processor with
      | none => exact ⟨[], List.nil_prefix, rfl⟩
      | some sink =>
        cases hd with
        | none => exact ⟨[], List.nil_prefix, rfl⟩
        | some h =>
          by_cases hp : st = State.Processing
          · refine ⟨[], List.nil_prefix, ?_⟩
            simp [Op.run, CSpxMicrophonePumpBase.StartPump, hp, captureThread]
          · by_cases hs : started = .AUDIO_RESULT_OK
            · subst hs
              obtain ⟨evs, hpre, heq⟩ := wait_for_events startPred sched
                (captureThread ⟨st, f, some h, some sink⟩ early).1
              refine ⟨early ++ evs, ?_, ?_⟩
              · simp only [Op.events]
                exact (List.prefix_append_right_inj early).mpr hpre
              · simp only [Op.run, CSpxMicrophonePumpBase.StartPump, if_neg hp, ne_eq,
                  not_true_eq_false, if_false, Op.sinkDuring, heq, captureThread_append]
            · refine ⟨[], List.nil_prefix, ?_⟩
              simp [Op.run, CSpxMicrophonePumpBase.StartPump, hp, hs, captureThread]
    | StopPump stopped early sched =>
      cases hd with
      | none => exact ⟨[], List.nil_prefix, rfl⟩
      | some h =>
        cases sk with
        | none => exact ⟨[], List.nil_prefix, rfl⟩
        | some sink =>
          by_cases hp : st = State.NoInput ∨ st = State.Idle
          · refine ⟨[], List.nil_prefix, ?_⟩
            simp [Op.run, CSpxMicrophonePumpBase.StopPump, ReleaseSink, hp, captureThread]
          · by_cases hs : stopped = .AUDIO_RESULT_OK
            · subst hs
              obtain ⟨evs, hpre, heq⟩ := wait_for_events stopPred sched
                (captureThread ⟨st, f, some h, some sink⟩ early).1
              refine ⟨early ++ evs, ?_, ?_⟩
              · simp only [Op.events]
                exact (List.prefix_append_right_inj early).mpr hpre
              · simp only [Op.run, CSpxMicrophonePumpBase.StopPump, ReleaseSink,
                  if_neg hp, ne_eq, not_true_eq_false, if_false, Op.sinkDuring, heq,
                  captureThread_append]
            · refine ⟨[], List.nil_prefix, ?_⟩
              simp [Op.run, CSpxMicrophonePumpBase.StopPump, ReleaseSink, hp, hs,
                captureThread]
  have hno : ∀ (op : Op) (w : CSpxMicrophonePumpBase × Heap),
      (op.run w).1.m_state = State.NoInput → w.1.m_state = State.NoInput := by
    intro op w h
    obtain ⟨evs, _, heq⟩ := hrun op w
    rw [heq] at h
    exact captureThread_noInput evs { w.1 with m_sink := op.sinkDuring w.1 } h
  refine ⟨fun _ => rfl, hrun, ?_, ?_, hno, ?_⟩
  · intro op w hev
    obtain ⟨evs, hpre, heq⟩ := hrun op w
    rw [hev] at hpre
    have : evs = [] := List.prefix_nil.mp hpre
    subst this
    exact heq
  · intro p
    refine ⟨rfl, ?_⟩
    cases p.m_state <;> simp
  · intro ops
    induction ops with
    | nil => intro w h; exact h
    | cons op rest ih =>
      intro w h
      simp only [runAll]
      exact ih (op.run w) (fun hn => h (hno op w hn))

/-- Witness of C9, amended: a Stop on a pump in state Processing during which the capture
thread delivers no event leaves the state Processing; a state that is NoInput
after a Start was NoInput before it; and a constructed pump that is initialised,
started, fed and stopped is not in state NoInput afterwards. -/
theorem state_machine_invariant_witness :
    (Op.StopPump .AUDIO_RESULT_OK [] [.wake]).events = [] ∧
    ((Op.StopPump .AUDIO_RESULT_OK [] [.wake]).run
      (samplePump .Processing (some 1) (some 7), [])).1.m_state = State.Processing ∧
    ((Op.StartPump (some 7) .AUDIO_RESULT_OK [] []).run
      (samplePump .NoInput (some 1) none, [])).1.m_state = State.NoInput ∧
    (samplePump .Idle (some 1) none).m_state ≠ State.NoInput ∧
    (runAll (samplePump .Idle (some 1) none, [[1, 2, 3]])
      [.StartPump (some 7) .AUDIO_RESULT_OK [.AUDIO_STATE_STARTING] [],
       .Process (some 0) 3,
       .StopPump .AUDIO_RESULT_OK [] [.capture .AUDIO_STATE_STOPPED],
       .Term]).1.m_state ≠ State.NoInput :=
  ⟨rfl,
   state_machine_invariant.2.2.1 (Op.StopPump .AUDIO_RESULT_OK [] [.wake])
     (samplePump .Processing (some 1) (some 7), []) rfl,
   rfl,
   by decide,
   state_machine_invariant.2.2.2.2.2
     [.StartPump (some 7) .AUDIO_RESULT_OK [.AUDIO_STATE_STARTING] [],
      .Process (some 0) 3,
      .StopPump .AUDIO_RESULT_OK [] [.capture .AUDIO_STATE_STOPPED],
      .Term]
     (samplePump .Idle (some 1) none, [[1, 2, 3]]) (by decide)⟩

/-! ## C10: Process copies the buffer -/

/-- C10. Copy fidelity of `Process`. For a pump with the sink `sink` registered
and a non-null input buffer `b` that holds at least `size` bytes, Process calls
`ProcessAudio` of the sink exactly once, with the size `size` and with a chunk
that is a block allocated by the call (the block after the last one of the
memory before, different from `b`); it returns 0 and leaves the pump, state and
sink included, unchanged. The memory afterwards is the memory before with the
chunk added; the chunk holds `size` bytes, and its first `size` bytes are the
first `size` bytes of the input buffer. The chunk is a copy: a write to the
input buffer after the call changes the input buffer and not the chunk. With a
non-null buffer and no sink registered, Process fails with InvalidArgument, makes
no call and allocates nothing. -/
theorem Process_copy :
    (∀ (p : CSpxMicrophonePumpBase) (heap : Heap) (sink b size : Nat),
      p.m_sink = some sink → b < heap.length → size ≤ (heap.getD b []).length →
      (p.Process heap (some b) size).1
        = ⟨.ok 0, p, [.ProcessAudio sink heap.length size]⟩ ∧
      heap.length ≠ b ∧
      (p.Process heap (some b) size).2.length = heap.length + 1 ∧
      (∀ j, j < heap.length →
        (p.Process heap (some b) size).2.getD j [] = heap.getD j []) ∧
      ((p.Process heap (some b) size).2.getD heap.length []).length = size ∧
      ((p.Process heap (some b) size).2.getD heap.length []).take size
        = (heap.getD b []).take size ∧
      (∀ (i : Nat) (v : Byte),
        (writeByte (p.Process heap (some b) size).2 b i v).getD heap.length []
          = (p.Process heap (some b) size).2.getD heap.length [] ∧
        (writeByte (p.Process heap (some b) size).2 b i v).getD b []
          = (heap.getD b []).set i v)) ∧
    (∀ (p : CSpxMicrophonePumpBase) (heap : Heap) (b size : Nat),
      p.m_sink = none →
      p.Process heap (some b) size = (⟨.error .SPXERR_INVALID_ARG, p, []⟩, heap)) := by
  constructor
  · intro p heap sink b size hs hb hsize
    have hheap := Process_heap p heap sink b size hs hb
    refine ⟨?_, by omega, ?_, ?_, ?_, ?_, ?_⟩
    · obtain ⟨st, f, hd, sk⟩ := p
      simp only at hs
      subst hs
      rfl
    · rw [hheap]; simp
    · intro j hj
      rw [hheap, heap_old heap _ j hj]
    · rw [hheap, heap_fresh, List.length_take]
      exact Nat.min_eq_left hsize
    · rw [hheap, heap_fresh]
      simp
    · intro i v
      rw [hheap]
      constructor
      · unfold writeByte
        rw [heap_set_other _ _ b heap.length (by omega)]
      · unfold writeByte
        rw [heap_set_same _ _ b (by simp; omega), heap_old heap _ b hb]
  · intro p heap b size hs
    obtain ⟨st, f, hd, sk⟩ := p
    simp only at hs
    subst hs
    rfl

/-- Witness of C10: a pump with sink 7 and a memory of one block holding the bytes
1 to 4, of which Process delivers the first three; the input buffer is then
overwritten. -/
theorem Process_copy_witness :
    (samplePump .Processing (some 1) (some 7)).m_sink = some 7 ∧
    0 < ([[1, 2, 3, 4]] : Heap).length ∧
    3 ≤ (([[1, 2, 3, 4]] : Heap).getD 0 []).length ∧
    ((samplePump .Processing (some 1) (some 7)).Process [[1, 2, 3, 4]] (some 0) 3).1
      = ⟨.ok 0, samplePump .Processing (some 1) (some 7), [.ProcessAudio 7 1 3]⟩ ∧
    ((samplePump .Processing (some 1) (some 7)).Process [[1, 2, 3, 4]] (some 0) 3).2
      = [[1, 2, 3, 4], [1, 2, 3]] ∧
    writeByte ((samplePump .Processing (some 1) (some 7)).Process [[1, 2, 3, 4]]
      (some 0) 3).2 0 1 9 = [[1, 9, 3, 4], [1, 2, 3]] :=
  ⟨rfl, by decide, by decide,
   (Process_copy.1 (samplePump .Processing (some 1) (some 7)) [[1, 2, 3, 4]] 7 0 3 rfl
      (by decide) (by decide)).1,
   by decide, by decide⟩

/-! ## C11: Process with a null buffer -/

/-- C11, the claim as stated is false: on the constructed pump, which has no sink
registered, `Process(null, 0)` throws InvalidArgument. -/
theorem Process_null_counterexample :
    (CSpxMicrophonePumpBase.ctor pcm).m_sink = none ∧
    ((CSpxMicrophonePumpBase.ctor pcm).Process [] none 0).1.result
      = .error .SPXERR_INVALID_ARG ∧
    ¬ (∀ (p : CSpxMicrophonePumpBase) (heap : Heap) (size : Nat),
        p.Process heap none size = (⟨.ok 0, p, []⟩, heap)) := by
  refine ⟨rfl, rfl, ?_⟩
  intro h
  have h1 := congrArg (fun r => errorOf r.1.result)
    (h (CSpxMicrophonePumpBase.ctor pcm) [] 0)
  simp [CSpxMicrophonePumpBase.Process, CSpxMicrophonePumpBase.ctor, errorOf] at h1

/-- C11, amended. For every pump with a sink registered, whatever its state, and
every size, `Process(null, size)` does not throw: it returns 0, makes no call,
allocates no chunk and leaves the pump unchanged. With no sink registered it
fails with InvalidArgument, and then too it makes no call, allocates nothing and
leaves the pump unchanged. -/
theorem Process_null (p : CSpxMicrophonePumpBase) (heap : Heap) (size : Nat) :
    (p.m_sink ≠ none → p.Process heap none size = (⟨.ok 0, p, []⟩, heap)) ∧
    (p.m_sink = none →
      p.Process heap none size = (⟨.error .SPXERR_INVALID_ARG, p, []⟩, heap)) := by
  obtain ⟨st, f, hd, sk⟩ := p
  cases sk with
  | none => exact ⟨fun h => absurd rfl h, fun _ => rfl⟩
  | some sink => exact ⟨fun _ => rfl, fun h => by simp at h⟩

/-- Witness of C11, amended: a pump in state Processing with sink 7, and an idle
pump with no sink. -/
theorem Process_null_witness :
    (samplePump .Processing (some 1) (some 7)).Process [[1, 2]] none 5
      = (⟨.ok 0, samplePump .Processing (some 1) (some 7), []⟩, [[1, 2]]) ∧
    (samplePump .Idle (some 1) none).Process [[1, 2]] none 5
      = (⟨.error .SPXERR_INVALID_ARG, samplePump .Idle (some 1) none, []⟩, [[1, 2]]) :=
  ⟨(Process_null (samplePump .Processing (some 1) (some 7)) [[1, 2]] 5).1
      (by simp [samplePump]),
   (Process_null (samplePump .Idle (some 1) none) [[1, 2]] 5).2 rfl⟩

/-! ## C12: the truncating copy of GetFormat -/

/-- What `GetFormat` does when the sum of the header size and the extension length
fits 16 bits. Pump (whose constructor sets the extension length to 0) and pull
stream alike: the required size is returned whatever the buffer and the size
passed, a supplied buffer has its first min(size, required) bytes overwritten
with those of the stored descriptor and the rest left as it was, and the object
is unchanged. -/
theorem GetFormat_truncating_copy_in_range :
    (∀ (p : CSpxMicrophonePumpBase) (size : Nat), p.m_format.cbSize = 0 →
      p.GetFormat none size = (⟨.ok sizeofSPXWAVEFORMATEX, p, []⟩, none) ∧
      ∀ dst, p.GetFormat (some dst) size =
        (⟨.ok sizeofSPXWAVEFORMATEX, p, []⟩,
          some ((headerBytes p.m_format).take (min size sizeofSPXWAVEFORMATEX) ++
            dst.drop (min size sizeofSPXWAVEFORMATEX)))) ∧
    (∀ (s : CSpxPullAudioInputStream) (stored : List Byte) (formatSize : Nat),
      s.m_format = some stored →
      sizeofSPXWAVEFORMATEX + cbSizeOf stored < 65536 →
      s.GetFormat none formatSize =
        (⟨.ok (sizeofSPXWAVEFORMATEX + cbSizeOf stored), s, []⟩, none) ∧
      ∀ dst, s.GetFormat (some dst) formatSize =
        (⟨.ok (sizeofSPXWAVEFORMATEX + cbSizeOf stored), s, []⟩,
          some (stored.take (min formatSize (sizeofSPXWAVEFORMATEX + cbSizeOf stored)) ++
            dst.drop (min formatSize (sizeofSPXWAVEFORMATEX + cbSizeOf stored))))) := by
  constructor
  · intro p size hcb
    obtain ⟨st, f, hd, sk⟩ := p
    simp only at hcb
    simp [CSpxMicrophonePumpBase.GetFormat, hcb, memcpy, sizeofSPXWAVEFORMATEX,
      Nat.min_comm]
  · intro s stored formatSize hs hlt
    obtain ⟨fm, rc, cc, pc⟩ := s
    simp only at hs
    subst hs
    simp [CSpxPullAudioInputStream.GetFormat, memcpy, Nat.mod_eq_of_lt hlt]

/-- C12: the code at the failing input. `GetFormat` of the pump and of the pull
stream return the sum of the header size and the extension length truncated to
16 bits, for every stored descriptor. For the pull stream whose format was set
from a descriptor with extension length 65535, the stored extension length is
65535 and the required size is 65553, and `GetFormat` reports 17; with a
destination of 20 bytes and the size 20 it overwrites 17 bytes, not 20. -/
theorem GetFormat_size_wraps :
    (∀ (p : CSpxMicrophonePumpBase) (format : Option (List Byte)) (size : Nat),
      (p.GetFormat format size).1.result
        = .ok ((sizeofSPXWAVEFORMATEX + p.m_format.cbSize) % 65536)) ∧
    (∀ (s : CSpxPullAudioInputStream) (stored : List Byte)
        (formatBuffer : Option (List Byte)) (formatSize : Nat),
      (({ s with m_format := some stored } : CSpxPullAudioInputStream).GetFormat
          formatBuffer formatSize).1.result
        = .ok ((sizeofSPXWAVEFORMATEX + cbSizeOf stored) % 65536)) ∧
    ((CSpxPullAudioInputStream.ctor.SetFormat (sampleFormat 65535)).stream.m_format.map
        cbSizeOf = some 65535 ∧
      sizeofSPXWAVEFORMATEX + 65535 = 65553 ∧
      ((CSpxPullAudioInputStream.ctor.SetFormat (sampleFormat 65535)).stream.GetFormat
        none 0).1.result = .ok 17 ∧
      ((CSpxPullAudioInputStream.ctor.SetFormat (sampleFormat 65535)).stream.GetFormat
        (some (List.replicate 20 0)) 20).2
        = some ((sampleFormat 65535).take 17 ++ [0, 0, 0])) := by
  refine ⟨?_, ?_, ?_, ?_, ?_, ?_⟩
  · intro p format size
    cases format <;> rfl
  · intro s stored formatBuffer formatSize
    cases formatBuffer <;> rfl
  · rfl
  · rfl
  · rfl
  · have hcb : cbSizeOf ((sampleFormat 65535).take (sizeofSPXWAVEFORMATEX + 65535))
        = 65535 := rfl
    have hsz : cbSizeOf (sampleFormat 65535) = 65535 := rfl
    simp only [CSpxPullAudioInputStream.SetFormat, CSpxPullAudioInputStream.ctor, hsz,
      SpxAllocWAVEFORMATEX, memcpy_fresh, CSpxPullAudioInputStream.GetFormat, hcb]
    simp [memcpy, sizeofSPXWAVEFORMATEX, List.take_take]

/-! ## C13: the format of the pull stream is set at most once -/

/-- C13. On a pull stream whose format has not been set, `SetFormat(f)` succeeds
and stores an owned copy of the first header-size plus extension-length bytes of
`f`, which has that many bytes when `f` does, and changes nothing else. Every
later `SetFormat` call, with any descriptor, fails with AlreadyInitialized and
leaves the stream, the stored descriptor included, exactly as the first call set
it, however many such calls follow. -/
theorem SetFormat_once (s : CSpxPullAudioInputStream) (format : List Byte)
    (hs : s.m_format = none) :
    (s.SetFormat format).result = .ok () ∧
    (s.SetFormat format).stream =
      { s with m_format := some (format.take (sizeofSPXWAVEFORMATEX + cbSizeOf format)) } ∧
    (sizeofSPXWAVEFORMATEX + cbSizeOf format ≤ format.length →
      (format.take (sizeofSPXWAVEFORMATEX + cbSizeOf format)).length
        = sizeofSPXWAVEFORMATEX + cbSizeOf format) ∧
    (∀ g : List Byte, (s.SetFormat format).stream.SetFormat g =
      ⟨.error (.thrown .SPXERR_ALREADY_INITIALIZED), (s.SetFormat format).stream, []⟩) ∧
    (∀ later : List (List Byte),
      later.foldl (fun t g => (t.SetFormat g).stream) (s.SetFormat format).stream
        = (s.SetFormat format).stream) := by
  obtain ⟨fm, rc, cc, pc⟩ := s
  simp only at hs
  subst hs
  have hstep : ∀ g : List Byte,
      ((CSpxPullAudioInputStream.mk none rc cc pc).SetFormat format).stream.SetFormat g =
      ⟨.error (.thrown .SPXERR_ALREADY_INITIALIZED),
        ((CSpxPullAudioInputStream.mk none rc cc pc).SetFormat format).stream, []⟩ :=
    fun _ => rfl
  refine ⟨rfl, ?_, ?_, hstep, ?_⟩
  · simp [CSpxPullAudioInputStream.SetFormat, SpxAllocWAVEFORMATEX, memcpy_fresh]
  · intro hlen
    rw [List.length_take]
    exact Nat.min_eq_left hlen
  · intro later
    induction later with
    | nil => rfl
    | cons g rest ih =>
      simp only [List.foldl_cons, hstep g]
      exact ih

/-- Witness of C13: the constructed pull stream, a descriptor with two trailing
bytes, and a second call with another descriptor. -/
theorem SetFormat_once_witness :
    CSpxPullAudioInputStream.ctor.m_format = none ∧
    (CSpxPullAudioInputStream.ctor.SetFormat (sampleFormat 2)).stream.m_format
      = some (sampleFormat 2) ∧
    ((CSpxPullAudioInputStream.ctor.SetFormat (sampleFormat 2)).stream.SetFormat
        (sampleFormat 0)).stream.m_format = some (sampleFormat 2) :=
  ⟨rfl,
   (congrArg CSpxPullAudioInputStream.m_format
      (SetFormat_once CSpxPullAudioInputStream.ctor (sampleFormat 2) rfl).2.1).trans rfl,
   congrArg (fun o => o.stream.m_format)
      ((SetFormat_once CSpxPullAudioInputStream.ctor (sampleFormat 2) rfl).2.2.2.1
        (sampleFormat 0))⟩

/-! ## C14: the round trip of the format -/

theorem sampleFormat_length (cbSize : Nat) :
    (sampleFormat cbSize).length = sizeofSPXWAVEFORMATEX + cbSize := by
  simp only [sampleFormat, headerBytes, List.length_append, List.length_replicate,
    List.length_cons, List.length_nil, sizeofSPXWAVEFORMATEX]

theorem memcpy_replicate (src : List Byte) (n m : Nat) (_h : n ≤ m) :
    memcpy (List.replicate m 0) src n = src.take n ++ List.replicate (m - n) 0 := by
  simp only [memcpy, List.drop_replicate]

theorem getD_append_replicate (l : List Byte) (k i : Nat) (h : l.length = i) :
    (l ++ List.replicate k 0).getD i 0 = 0 := by
  subst h
  cases k with
  | zero => simp [List.getD_eq_getElem?_getD]
  | succ n =>
    rw [List.getD_eq_getElem?_getD, List.getElem?_append_right (Nat.le_refl _)]
    simp [List.replicate_succ]

theorem cbSizeOf_take (image : List Byte) (n : Nat) (h : 18 ≤ n) :
    cbSizeOf (image.take n) = cbSizeOf image := by
  have h16 : (image.take n).getD 16 0 = image.getD 16 0 := by
    simp [List.getD_eq_getElem?_getD, List.getElem?_take, show 16 < n by omega]
  have h17 : (image.take n).getD 17 0 = image.getD 17 0 := by
    simp [List.getD_eq_getElem?_getD, List.getElem?_take, show 17 < n by omega]
  simp only [cbSizeOf, h16, h17]

/-- The round trip when the sum of the header size and the extension length fits
16 bits: after `SetFormat(f)` on a stream with no format, for a descriptor `f` of
header-size plus extension-length bytes, `GetFormat` reports that size, and
`GetFormat` into a destination of that size gives `f` back byte for byte. -/
theorem format_round_trip_in_range (s : CSpxPullAudioInputStream)
    (format dst : List Byte) (hs : s.m_format = none)
    (hlen : format.length = sizeofSPXWAVEFORMATEX + cbSizeOf format)
    (hfit : sizeofSPXWAVEFORMATEX + cbSizeOf format < 65536)
    (hdst : dst.length = sizeofSPXWAVEFORMATEX + cbSizeOf format) :
    ((s.SetFormat format).stream.GetFormat none 0).1.result
      = .ok (sizeofSPXWAVEFORMATEX + cbSizeOf format) ∧
    ((s.SetFormat format).stream.GetFormat (some dst)
      (sizeofSPXWAVEFORMATEX + cbSizeOf format)).2 = some format := by
  obtain ⟨fm, rc, cc, pc⟩ := s
  simp only at hs
  subst hs
  have htake : format.take (sizeofSPXWAVEFORMATEX + cbSizeOf format) = format :=
    List.take_of_length_le (by omega)
  refine ⟨?_, ?_⟩
  · simp only [CSpxPullAudioInputStream.SetFormat, SpxAllocWAVEFORMATEX, memcpy_fresh,
      htake, CSpxPullAudioInputStream.GetFormat, Nat.mod_eq_of_lt hfit]
  · simp only [CSpxPullAudioInputStream.SetFormat, SpxAllocWAVEFORMATEX, memcpy_fresh,
      htake]
    simp only [CSpxPullAudioInputStream.GetFormat, Nat.mod_eq_of_lt hfit, Nat.min_self,
      memcpy, htake, Option.some.injEq]
    rw [List.drop_of_length_le (by omega), List.append_nil]

/-- C14: the code at the failing input. A descriptor with extension length 65535
and that many trailing bytes has 65553 bytes, and `SetFormat` on the constructed
stream stores all of them. `GetFormat` then reports the required size 17, the sum
65553 wrapped to 16 bits, and `GetFormat` into a destination of 65553 bytes copies
17 bytes only: the byte at offset 17, 255 in the descriptor, is left as it was
in the destination. -/
theorem format_round_trip_wraps :
    (sampleFormat 65535).length = 65553 ∧
    cbSizeOf (sampleFormat 65535) = 65535 ∧
    (CSpxPullAudioInputStream.ctor.SetFormat (sampleFormat 65535)).stream.m_format
      = some (sampleFormat 65535) ∧
    ((CSpxPullAudioInputStream.ctor.SetFormat (sampleFormat 65535)).stream.GetFormat
      none 0).1.result = .ok 17 ∧
    ((CSpxPullAudioInputStream.ctor.SetFormat (sampleFormat 65535)).stream.GetFormat
      (some (List.replicate 65553 0)) 65553).2
      = some ((sampleFormat 65535).take 17 ++ List.replicate 65536 0) ∧
    (sampleFormat 65535).getD 17 0 = 255 ∧
    ((sampleFormat 65535).take 17 ++ List.replicate 65536 0).getD 17 0 = 0 := by
  have hlen : (sampleFormat 65535).length = 65553 := sampleFormat_length 65535
  have hsz : cbSizeOf (sampleFormat 65535) = 65535 := rfl
  have htake : (sampleFormat 65535).take (sizeofSPXWAVEFORMATEX + 65535)
      = sampleFormat 65535 :=
    List.take_of_length_le (Nat.le_of_eq hlen)
  have hstored : (CSpxPullAudioInputStream.ctor.SetFormat (sampleFormat 65535)).stream
      = { CSpxPullAudioInputStream.ctor with m_format := some (sampleFormat 65535) } := by
    simp only [CSpxPullAudioInputStream.SetFormat, CSpxPullAudioInputStream.ctor, hsz,
      SpxAllocWAVEFORMATEX, memcpy_fresh, htake]
  refine ⟨hlen, hsz, ?_, rfl, ?_, rfl, ?_⟩
  · rw [hstored]
  · rw [hstored]
    simp only [CSpxPullAudioInputStream.GetFormat, hsz]
    exact congrArg some (memcpy_replicate (sampleFormat 65535) 17 65553 (by decide))
  · exact getD_append_replicate _ 65536 17 (by rw [List.length_take, hlen]; rfl)

/-! ## C15: Read delegates to the read callback -/

/-- C15. `Read` on a pull stream with a read callback registered is a pure
delegation: for every buffer and every number of bytes asked for, it invokes the
read callback exactly once, with the same buffer and number, returns the byte
count the callback reports (0 when the callback reports 0), invokes neither the
close callback nor the property callback, and leaves the stream unchanged. -/
theorem Read_delegates (s : CSpxPullAudioInputStream)
    (readCallback : Option Nat → Nat → Nat) (buffer : Option Nat) (bytesToRead : Nat)
    (hs : s.m_readCallback = some readCallback) :
    s.Read buffer bytesToRead =
      ⟨.ok (readCallback buffer bytesToRead), s, [.readCallback buffer bytesToRead]⟩ ∧
    (readCallback buffer bytesToRead = 0 → (s.Read buffer bytesToRead).result = .ok 0) ∧
    PullCall.closeCallback ∉ (s.Read buffer bytesToRead).calls ∧
    (∀ propertyId maxLen,
      PullCall.getPropertyCallback propertyId maxLen ∉ (s.Read buffer bytesToRead).calls) := by
  obtain ⟨fm, rc, cc, pc⟩ := s
  simp only at hs
  subst hs
  refine ⟨rfl, ?_, ?_, ?_⟩
  · intro h0
    simp [CSpxPullAudioInputStream.Read, h0]
  · simp [CSpxPullAudioInputStream.Read]
  · intro propertyId maxLen
    simp [CSpxPullAudioInputStream.Read]

/-- Witness of C15: a stream with all three callbacks registered, whose read
callback reports end of stream. -/
theorem Read_delegates_witness :
    (CSpxPullAudioInputStream.mk none (some (fun _ _ => 0)) (some ())
        (some (fun _ _ => []))).Read (some 3) 320
      = ⟨.ok 0,
         CSpxPullAudioInputStream.mk none (some (fun _ _ => 0)) (some ())
           (some (fun _ _ => [])),
         [.readCallback (some 3) 320]⟩ :=
  (Read_delegates
    (CSpxPullAudioInputStream.mk none (some (fun _ _ => 0)) (some ())
      (some (fun _ _ => [])))
    (fun _ _ => 0) (some 3) 320 rfl).1

/-! ## C16: calls made before the callbacks are set -/

/-- C16: the code at the failing input. On a pull stream with no callback
registered, with or without a format, `Close` returns without a call and
`GetProperty` returns the empty string for every property, but `Read` invokes the
empty read callback: it does not return 0, it does not return. -/
theorem calls_before_callbacks_set (format : Option (List Byte)) :
    ({ CSpxPullAudioInputStream.ctor with m_format := format }).Close
      = ⟨.ok (), { CSpxPullAudioInputStream.ctor with m_format := format }, []⟩ ∧
    (∀ maxLen propertyId,
      ({ CSpxPullAudioInputStream.ctor with m_format := format }).GetProperty
          maxLen propertyId
        = ⟨.ok [], { CSpxPullAudioInputStream.ctor with m_format := format }, []⟩) ∧
    (∀ buffer bytesToRead,
      ({ CSpxPullAudioInputStream.ctor with m_format := format }).Read buffer bytesToRead
        = ⟨.error .emptyCallback,
            { CSpxPullAudioInputStream.ctor with m_format := format }, []⟩) ∧
    (CSpxPullAudioInputStream.ctor.Read (some 0) 10).result ≠ .ok 0 := by
  refine ⟨rfl, fun _ _ => rfl, fun _ _ => rfl, ?_⟩
  simp [CSpxPullAudioInputStream.Read, CSpxPullAudioInputStream.ctor]

/-! ## C17: the mutex -/

theorem unlockedAccesses_wait (line : Nat) (wakeups : Nat) (rest : List Step) :
    unlockedAccesses true (waitSteps line wakeups ++ rest) = unlockedAccesses true rest := by
  induction wakeups generalizing rest with
  | zero => simp [waitSteps, unlockedAccesses]
  | succ n ih =>
    simp only [waitSteps, List.append_assoc]
    rw [ih]
    simp [unlockedAccesses]

/-- C17: the code against the claim. `StartPump`, `GetState` and `UpdateState`
read and write `m_state` and `m_sink` only while they hold the mutex, and no
operation touches `m_state` without it. `StopPump` and `Process` do not: on every
path of `StopPump` the guard of line 97 writes `m_sink` after the locks are
released; on a pump with an opened device `StopPump` reads `m_sink` at line 102
before it takes the mutex; and `Process`, which never takes the mutex, reads
`m_sink` at line 168, and at line 174 when it delivers a buffer. -/
theorem lock_discipline :
    (∀ p processor started wakeups,
      unlockedAccesses false (StartPump_steps p processor started wakeups) = []) ∧
    unlockedAccesses false GetState_steps = [] ∧
    (∀ p state, unlockedAccesses false (UpdateState_steps p state) = []) ∧
    (∀ p stopped wakeups, ∀ st ∈ unlockedAccesses false (StopPump_steps p stopped wakeups),
      st.touches .m_state = false) ∧
    (∀ p stopped wakeups,
      Step.write .m_sink 97 ∈ unlockedAccesses false (StopPump_steps p stopped wakeups)) ∧
    (∀ stopped wakeups,
      unlockedAccesses false
        (StopPump_steps (samplePump .Idle (some 1) (some 7)) stopped wakeups)
        = [.read .m_sink 102, .write .m_sink 97]) ∧
    (∀ wakeups,
      unlockedAccesses false
        (StopPump_steps (samplePump .Processing (some 1) (some 7)) .AUDIO_RESULT_OK wakeups)
        = [.read .m_sink 102, .write .m_sink 97]) ∧
    (∀ p pBuffer,
      unlockedAccesses false (Process_steps p pBuffer) = Process_steps p pBuffer ∧
      Step.read .m_sink 168 ∈ unlockedAccesses false (Process_steps p pBuffer)) ∧
    unlockedAccesses false (Process_steps (samplePump .Processing (some 1) (some 7)) (some 0))
      = [.read .m_sink 168, .read .m_sink 174] := by
  refine ⟨?_, rfl, ?_, ?_, ?_, ?_, ?_, ?_, rfl⟩
  · intro p processor started wakeups
    obtain ⟨st, f, hd, sk⟩ := p
    cases processor <;> cases hd <;> cases st <;>
      by_cases hs : started = .AUDIO_RESULT_OK <;>
      simp [StartPump_steps, unlockedAccesses, unlockedAccesses_wait, hs]
  · intro p state
    obtain ⟨st, f, hd, sk⟩ := p
    cases sk <;> cases state <;> simp [UpdateState_steps, unlockedAccesses]
  · intro p stopped wakeups
    obtain ⟨st, f, hd, sk⟩ := p
    cases hd <;> cases sk <;> cases st <;>
      by_cases hs : stopped = .AUDIO_RESULT_OK <;>
      simp [StopPump_steps, unlockedAccesses, unlockedAccesses_wait, hs, Step.touches]
  · intro p stopped wakeups
    obtain ⟨st, f, hd, sk⟩ := p
    cases hd <;> cases sk <;> cases st <;>
      by_cases hs : stopped = .AUDIO_RESULT_OK <;>
      simp [StopPump_steps, unlockedAccesses, unlockedAccesses_wait, hs]
  · intro stopped wakeups
    simp [StopPump_steps, samplePump, unlockedAccesses]
  · intro wakeups
    simp [StopPump_steps, samplePump, unlockedAccesses, unlockedAccesses_wait]
  · intro p pBuffer
    obtain ⟨st, f, hd, sk⟩ := p
    cases sk <;> cases pBuffer <;> simp [Process_steps, unlockedAccesses]

/-! ## C18: Processing with no sink -/

/-- C18. A pump in state Processing with an empty sink reference is stuck. From
that configuration `StartPump` with any sink fails with InvalidArgument or
AlreadyPumping, and `StopPump`, `UpdateState` with any event and `Process` with a
non-null buffer fail with InvalidArgument; each makes no call and leaves the
pump, hence the state Processing and the empty sink reference, as it was. So
every operation fails or leaves the state and the sink alone, and after any
sequence of operations the state is Processing and the sink reference empty. The
configuration is the one `StopPump` leaves when the device accepts the stop
request and the wait expires with no 'stopped' event. -/
theorem stuck_in_processing (p : CSpxMicrophonePumpBase)
    (hst : p.m_state = State.Processing) (hsk : p.m_sink = none) :
    (∀ processor started early sched,
      ((p.StartPump processor started early sched).result = .error .SPXERR_INVALID_ARG ∨
        (p.StartPump processor started early sched).result
          = .error .SPXERR_AUDIO_IS_PUMPING) ∧
      (p.StartPump processor started early sched).pump = p ∧
      (p.StartPump processor started early sched).calls = []) ∧
    (∀ stopped early sched,
      p.StopPump stopped early sched = ⟨.error .SPXERR_INVALID_ARG, p, []⟩) ∧
    (∀ state, p.UpdateState state = ⟨.error .SPXERR_INVALID_ARG, p, []⟩) ∧
    (∀ heap b size,
      p.Process heap (some b) size = (⟨.error .SPXERR_INVALID_ARG, p, []⟩, heap)) ∧
    (∀ (ops : List Op) (heap : Heap),
      (runAll (p, heap) ops).1.m_state = State.Processing ∧
      (runAll (p, heap) ops).1.m_sink = none) ∧
    (∀ h sink, p.m_audioHandle = some h →
      ({ p with m_sink := some sink } : CSpxMicrophonePumpBase).StopPump
        .AUDIO_RESULT_OK [] [] = ⟨.ok (), p, [.audio_input_stop h]⟩) := by
  obtain ⟨st, f, hd, sk⟩ := p
  simp only at hst hsk
  subst hst hsk
  refine ⟨?_, ?_, ?_, ?_, ?_, ?_⟩
  · intro processor started early sched
    cases processor <;> cases hd <;> simp [CSpxMicrophonePumpBase.StartPump]
  · intro stopped early sched
    cases hd <;> rfl
  · intro state
    rfl
  · intro heap b size
    rfl
  · intro ops
    have hstep : ∀ (op : Op) (w : CSpxMicrophonePumpBase × Heap),
        w.1.m_state = State.Processing → w.1.m_sink = none →
        (op.run w).1.m_state = State.Processing ∧ (op.run w).1.m_sink = none := by
      intro op w h1 h2
      obtain ⟨⟨st1, f1, hd1, sk1⟩, heap1⟩ := w
      simp only at h1 h2
      subst h1 h2
      cases op with
      | Init created registered =>
        cases created <;> by_cases hr : registered = .AUDIO_RESULT_OK <;>
          simp [Op.run, CSpxMicrophonePumpBase.Init, hr,
            CSpxMicrophonePumpBase.SetOptionsAfterCreateAudioHandle]
      | Term => exact ⟨rfl, rfl⟩
      | GetFormat format size => cases format <;> exact ⟨rfl, rfl⟩
      | GetState => exact ⟨rfl, rfl⟩
      | UpdateState state => exact ⟨rfl, rfl⟩
      | Process pBuffer size => exact ⟨rfl, rfl⟩
      | StartPump processor started early sched =>
        cases processor <;> cases hd1 <;>
          simp [Op.run, CSpxMicrophonePumpBase.StartPump]
      | StopPump stopped early sched =>
        cases hd1 <;> exact ⟨rfl, rfl⟩
    have hall : ∀ (ops : List Op) (w : CSpxMicrophonePumpBase × Heap),
        w.1.m_state = State.Processing → w.1.m_sink = none →
        (runAll w ops).1.m_state = State.Processing ∧ (runAll w ops).1.m_sink = none := by
      intro ops
      induction ops with
      | nil => intro w h1 h2; exact ⟨h1, h2⟩
      | cons op rest ih =>
        intro w h1 h2
        simp only [runAll]
        exact ih (op.run w) (hstep op w h1 h2).1 (hstep op w h1 h2).2
    intro heap
    exact hall ops _ rfl rfl
  · intro h sink hh
    simp only at hh
    subst hh
    rfl

/-- Witness of C18: the pump that a Stop with an expired wait leaves behind, and a
sequence of a stop event, a Stop, a Start and a Process on it. -/
theorem stuck_in_processing_witness :
    (samplePump .Processing (some 1) none).m_state = State.Processing ∧
    (samplePump .Processing (some 1) none).m_sink = none ∧
    ((samplePump .Processing (some 1) (some 7)).StopPump .AUDIO_RESULT_OK [] []).pump
      = samplePump .Processing (some 1) none ∧
    (samplePump .Processing (some 1) none).UpdateState .AUDIO_STATE_STOPPED
      = ⟨.error .SPXERR_INVALID_ARG, samplePump .Processing (some 1) none, []⟩ ∧
    (runAll (samplePump .Processing (some 1) none, [[1, 2]])
      [.UpdateState .AUDIO_STATE_STOPPED,
       .StopPump .AUDIO_RESULT_OK [.AUDIO_STATE_STOPPED] [.wake],
       .StartPump (some 8) .AUDIO_RESULT_OK [.AUDIO_STATE_STARTING] [],
       .Process (some 0) 2]).1.m_state = State.Processing :=
  ⟨rfl, rfl, rfl,
   (stuck_in_processing (samplePump .Processing (some 1) none) rfl rfl).2.2.1
     .AUDIO_STATE_STOPPED,
   ((stuck_in_processing (samplePump .Processing (some 1) none) rfl rfl).2.2.2.2.1
     [.UpdateState .AUDIO_STATE_STOPPED,
      .StopPump .AUDIO_RESULT_OK [.AUDIO_STATE_STOPPED] [.wake],
      .StartPump (some 8) .AUDIO_RESULT_OK [.AUDIO_STATE_STARTING] [],
      .Process (some 0) 2] [[1, 2]]).1⟩

/-! ## C19: a failed Start is not rolled back -/

/-- C19. For a pump with an opened device and a state other than Processing and a
non-null sink: Start fails with DeviceError exactly when the device rejects the
start request, and then the pump afterwards is the pump before with the sink
passed to Start registered in place of any sink registered before, the state
unchanged. When Start fails with Timeout, the sink passed is the registered sink
afterwards as well, and the state is the state that the `UpdateState` calls of
the capture thread during Start produce: Start does not write it, and it is the
state before when the capture thread delivers no event. -/
theorem StartPump_not_rolled_back (p : CSpxMicrophonePumpBase) (sink h : Nat)
    (started : AUDIO_RESULT) (early : List AUDIO_STATE) (sched : List WaitStep)
    (hh : p.m_audioHandle = some h) (hp : p.m_state ≠ State.Processing) :
    ((p.StartPump (some sink) started early sched).result = .error .SPXERR_MIC_ERROR ↔
      started ≠ .AUDIO_RESULT_OK) ∧
    ((p.StartPump (some sink) started early sched).result = .error .SPXERR_MIC_ERROR →
      (p.StartPump (some sink) started early sched).pump = { p with m_sink := some sink } ∧
      (p.StartPump (some sink) started early sched).pump.m_state = p.m_state) ∧
    ((p.StartPump (some sink) started early sched).result = .error .SPXERR_TIMEOUT →
      (p.StartPump (some sink) started early sched).pump.m_sink = some sink ∧
      (∃ evs, evs <+: early ++ captured sched ∧
        (p.StartPump (some sink) started early sched).pump.m_state
          = (captureThread { p with m_sink := some sink } evs).1.m_state) ∧
      (early ++ captured sched = [] →
        (p.StartPump (some sink) started early sched).pump.m_state = p.m_state)) := by
  obtain ⟨st, f, hd, sk⟩ := p
  simp only at hh hp
  subst hh
  by_cases hs : started = .AUDIO_RESULT_OK
  · subst hs
    have hne : ∀ b : Bool, (if b = false then (Except.error SpxErr.SPXERR_TIMEOUT :
        Except SpxErr Unit) else Except.ok ()) ≠ .error .SPXERR_MIC_ERROR := by
      intro b; cases b <;> simp
    have hev : ∃ evs, evs <+: early ++ captured sched ∧
        (wait_for startPred (captureThread ⟨st, f, some h, some sink⟩ early).1 sched).2.1
          = (captureThread ⟨st, f, some h, some sink⟩ evs).1 := by
      obtain ⟨evs, hpre, heq⟩ := wait_for_events startPred sched
        (captureThread ⟨st, f, some h, some sink⟩ early).1
      exact ⟨early ++ evs, (List.prefix_append_right_inj early).mpr hpre, by
        rw [heq, captureThread_append]⟩
    simp only [CSpxMicrophonePumpBase.StartPump, if_neg hp, ne_eq, not_true_eq_false,
      if_false]
    refine ⟨?_, ?_, ?_⟩
    · simp [hne]
    · intro herr
      exact absurd herr (hne _)
    · intro _
      obtain ⟨evs, hpre, heq⟩ := hev
      refine ⟨?_, ⟨evs, hpre, by rw [heq]⟩, ?_⟩
      · rw [(wait_for_keeps startPred sched _).1]
        exact (captureThread_keeps early ⟨st, f, some h, some sink⟩).1
      · intro hnil
        rw [hnil] at hpre
        have : evs = [] := List.prefix_nil.mp hpre
        subst this
        rw [heq]
        rfl
  · simp [CSpxMicrophonePumpBase.StartPump, hp, hs]

/-- Witness of C19: an idle pump with device 1 and sink 7, started with sink 8;
the device rejects the request, and the device accepts it and no event arrives. -/
theorem StartPump_not_rolled_back_witness :
    (samplePump .Idle (some 1) (some 7)).m_audioHandle = some 1 ∧
    (samplePump .Idle (some 1) (some 7)).m_state ≠ State.Processing ∧
    ((samplePump .Idle (some 1) (some 7)).StartPump (some 8) (.failure 3) [] []).result
      = .error .SPXERR_MIC_ERROR ∧
    ((samplePump .Idle (some 1) (some 7)).StartPump (some 8) (.failure 3) [] []).pump
      = samplePump .Idle (some 1) (some 8) ∧
    ((samplePump .Idle (some 1) (some 7)).StartPump (some 8) .AUDIO_RESULT_OK [] []).result
      = .error .SPXERR_TIMEOUT ∧
    ((samplePump .Idle (some 1) (some 7)).StartPump (some 8) .AUDIO_RESULT_OK []
      []).pump.m_sink = some 8 :=
  ⟨rfl, by decide, rfl,
   ((StartPump_not_rolled_back (samplePump .Idle (some 1) (some 7)) 8 1 (.failure 3) []
      [] rfl (by decide)).2.1 rfl).1,
   rfl,
   ((StartPump_not_rolled_back (samplePump .Idle (some 1) (some 7)) 8 1 .AUDIO_RESULT_OK
      [] [] rfl (by decide)).2.2 rfl).1⟩

end Speech.Impl
